import Mathlib

/-!
Verification development for the LQL expression language (Go implementation).

The definitions below are a shallow embedding of the Go sources:
  - pkg/tokens (token types, byte codes, fixed literal table)
  - pkg/lexer (Lexer.NextToken, Lexer.ExportTokens)
  - pkg/bytecode (ByteCodeReader.NextToken)
  - pkg/parser (Parser.ParseExpression and productions)
  - pkg/ast/expressions (Eval for every node variant)
  - pkg/types (ToFloat, ToInt, IsInt, Equals, Compare, ParseNumber, conversions)

Go's float64 is modelled exactly as a dyadic rational (mantissa times a power
of two) with IEEE-754 binary64 round-to-nearest-even; all arithmetic is pure
Int/Nat arithmetic so every definition reduces in the kernel.  Loops in the Go
source are modelled with explicit fuel; every fuel argument is sized from the
input so that the fuel never runs out on inputs the Go code terminates on.
-/

namespace LQL

/-! ## Bit-level helpers (structural replacements for Nat.log2 etc.) -/

/-- Fueled floor-log2 helper; structural so it reduces in the kernel. -/
def natLog2Aux : Nat → Nat → Nat
  | 0, _ => 0
  | _, 0 => 0
  | _, 1 => 0
  | fuel + 1, n => natLog2Aux fuel (n / 2) + 1

/-- Floor of log2 (0 for inputs 0 and 1). -/
def natLog2 (n : Nat) : Nat := natLog2Aux n n

/-- Number of binary digits of n (0 for 0). -/
def bitlen (n : Nat) : Nat := if n = 0 then 0 else natLog2 n + 1

/-! ## Exact model of Go float64 (IEEE-754 binary64)

A finite float64 value is `m * 2^e` with `|m| < 2^53`.  We keep the canonical
form where `m` is zero or odd, so equality of values is structural equality.
The model covers the normal range (claims below never reach overflow,
subnormal or NaN territory, and the Go code under verification never
produces them on the inputs considered). -/

structure F64 where
  m : Int
  e : Int
  deriving DecidableEq, Repr

/-- Strip trailing zero bits of the mantissa (fueled by the bit length). -/
def normAux : Nat → Int → Int → F64
  | 0, m, e => ⟨m, e⟩
  | fuel + 1, m, e => if m % 2 = 0 ∧ m ≠ 0 then normAux fuel (m / 2) (e + 1) else ⟨m, e⟩

/-- Canonicalize a dyadic `m * 2^e`: zero becomes `⟨0, 0⟩`, otherwise make `m` odd. -/
def mkF64 (m : Int) (e : Int) : F64 :=
  if m = 0 then ⟨0, 0⟩ else normAux (bitlen m.natAbs) m e

/-- Round a natural mantissa `q` with a sticky remainder flag down to 53 bits,
round-to-nearest, ties to even.  Returns the rounded mantissa and the number of
bits dropped. -/
def roundMantissa (q : Nat) (sticky : Bool) : Nat × Nat :=
  let len := bitlen q
  if len ≤ 53 then (q, 0)
  else
    let t := len - 53
    let keep := q >>> t
    let low := q % (2 ^ t)
    let half := 2 ^ (t - 1)
    if low > half then (keep + 1, t)
    else if low < half then (keep, t)
    else if sticky then (keep + 1, t)
    else if keep % 2 = 0 then (keep, t) else (keep + 1, t)

/-- Round the exact dyadic `m * 2^e` to the nearest binary64 value. -/
def roundDyadic (m : Int) (e : Int) : F64 :=
  if m = 0 then ⟨0, 0⟩
  else
    let n := m.natAbs
    let (keep, t) := roundMantissa n false
    let mag : Int := Int.ofNat keep
    mkF64 (if m < 0 then -mag else mag) (e + Int.ofNat t)

/-- Go conversion int64 → float64 (round to nearest, ties to even). -/
def floatOfInt (x : Int) : F64 := roundDyadic x 0

/-- IEEE addition: exact sum, then rounding. -/
def addF (a b : F64) : F64 :=
  let emin := min a.e b.e
  roundDyadic (a.m * 2 ^ (a.e - emin).toNat + b.m * 2 ^ (b.e - emin).toNat) emin

/-- IEEE subtraction. -/
def subF (a b : F64) : F64 :=
  let emin := min a.e b.e
  roundDyadic (a.m * 2 ^ (a.e - emin).toNat - b.m * 2 ^ (b.e - emin).toNat) emin

/-- IEEE multiplication: exact product, then rounding. -/
def mulF (a b : F64) : F64 := roundDyadic (a.m * b.m) (a.e + b.e)

/-- Correctly rounded quotient of natural `na / nb` (nb ≠ 0) as a rounded
53-bit mantissa together with its exponent adjustment. -/
def divMantissa (na nb : Nat) : Nat × Int :=
  let la := bitlen na
  let lb := bitlen nb
  let s := lb + 54 - min la (lb + 54)
  let bigN := na <<< s
  let q0 := bigN / nb
  let r := bigN % nb
  let (keep, t) := roundMantissa q0 (r ≠ 0)
  (keep, Int.ofNat t - Int.ofNat s)

/-- IEEE division (b must be nonzero; callers check). -/
def divF (a b : F64) : F64 :=
  if a.m = 0 ∨ b.m = 0 then ⟨0, 0⟩
  else
    let (keep, eadj) := divMantissa a.m.natAbs b.m.natAbs
    let mag : Int := Int.ofNat keep
    mkF64 (if (a.m < 0) ≠ (b.m < 0) then -mag else mag) (a.e - b.e + eadj)

/-- Negation (exact). -/
def negF (a : F64) : F64 := ⟨-a.m, a.e⟩

/-- Absolute value (exact). -/
def absF (a : F64) : F64 := ⟨|a.m|, a.e⟩

/-- Comparison of two float64 values (IEEE comparison is exact). -/
def ltF (a b : F64) : Bool :=
  let emin := min a.e b.e
  decide (a.m * 2 ^ (a.e - emin).toNat < b.m * 2 ^ (b.e - emin).toNat)

def leF (a b : F64) : Bool :=
  let emin := min a.e b.e
  decide (a.m * 2 ^ (a.e - emin).toNat ≤ b.m * 2 ^ (b.e - emin).toNat)

/-- Go conversion float64 → int64: truncation toward zero.  (Go leaves the
out-of-range case implementation-defined; no theorem below reaches it, and the
model then still returns the truncated mathematical value.) -/
def truncF (a : F64) : Int :=
  if a.e ≥ 0 then a.m * 2 ^ a.e.toNat
  else
    let mag := a.m.natAbs >>> (-a.e).toNat
    if a.m < 0 then -(Int.ofNat mag) else Int.ofNat mag

/-- The float64 value of the Go literal 1e-9 (nearest double to 10^-9),
obtained as the correctly rounded quotient 1/10^9. -/
def tolF : F64 := divF (floatOfInt 1) (floatOfInt 1000000000)

/-! ## Tokens (pkg/tokens) -/

/-- TokenType enumeration, in the declaration order of the Go source. -/
inductive TokenType where
  | eof | illegal | ident | number | string | bool | null
  | plus | minus | multiply | divide
  | lt | gt | lte | gte | eq | neq
  | and | or | not
  | lparen | rparen | leftBracket | rightBracket | leftCurly | rightCurly
  | comma | colon | dot | question | questionDot | questionBracket | dollar
  deriving DecidableEq, Repr

/-- Token carries type, literal and 1-based position. -/
structure Token where
  type : TokenType
  literal : String
  line : Int
  column : Int
  deriving DecidableEq, Repr

/-- TokenTypeToByte: each TokenType's byte code.  The Go map has no entry for
TokenQuestion (code 29 is skipped), so lookup of `question` fails. -/
def tokenTypeToByte : TokenType → Option Nat
  | .eof => some 0
  | .illegal => some 1
  | .ident => some 2
  | .number => some 3
  | .string => some 4
  | .bool => some 5
  | .null => some 6
  | .plus => some 7
  | .minus => some 8
  | .multiply => some 9
  | .divide => some 10
  | .lt => some 11
  | .gt => some 12
  | .lte => some 13
  | .gte => some 14
  | .eq => some 15
  | .neq => some 16
  | .and => some 17
  | .or => some 18
  | .not => some 19
  | .lparen => some 20
  | .rparen => some 21
  | .leftBracket => some 22
  | .rightBracket => some 23
  | .leftCurly => some 24
  | .rightCurly => some 25
  | .comma => some 26
  | .colon => some 27
  | .dot => some 28
  | .questionDot => some 30
  | .questionBracket => some 31
  | .dollar => some 32
  | .question => none

/-- ByteToTokenType: inverse of tokenTypeToByte (built by inverting the map in
the Go source; codes 29 and 33+ are absent). -/
def byteToTokenType : Nat → Option TokenType
  | 0 => some .eof
  | 1 => some .illegal
  | 2 => some .ident
  | 3 => some .number
  | 4 => some .string
  | 5 => some .bool
  | 6 => some .null
  | 7 => some .plus
  | 8 => some .minus
  | 9 => some .multiply
  | 10 => some .divide
  | 11 => some .lt
  | 12 => some .gt
  | 13 => some .lte
  | 14 => some .gte
  | 15 => some .eq
  | 16 => some .neq
  | 17 => some .and
  | 18 => some .or
  | 19 => some .not
  | 20 => some .lparen
  | 21 => some .rparen
  | 22 => some .leftBracket
  | 23 => some .rightBracket
  | 24 => some .leftCurly
  | 25 => some .rightCurly
  | 26 => some .comma
  | 27 => some .colon
  | 28 => some .dot
  | 30 => some .questionDot
  | 31 => some .questionBracket
  | 32 => some .dollar
  | _ => none

/-- FixedTokenLiterals: fixed literal strings for tokens.  BOOL, NULL, EOF,
ILLEGAL, IDENT, NUMBER and STRING have no entry. -/
def fixedTokenLiterals : TokenType → Option String
  | .plus => some "+"
  | .minus => some "-"
  | .multiply => some "*"
  | .divide => some "/"
  | .lt => some "<"
  | .gt => some ">"
  | .lte => some "<="
  | .gte => some ">="
  | .eq => some "=="
  | .neq => some "!="
  | .and => some "AND"
  | .or => some "OR"
  | .not => some "NOT"
  | .lparen => some "("
  | .rparen => some ")"
  | .leftBracket => some "["
  | .rightBracket => some "]"
  | .leftCurly => some "\x7b"
  | .rightCurly => some "\x7d"
  | .comma => some ","
  | .colon => some ":"
  | .dot => some "."
  | .questionDot => some "?."
  | .questionBracket => some "?["
  | .dollar => some "$"
  | _ => none

/-! ## Errors (pkg/errors) -/

/-- The positional error taxonomy (each Go error struct carries Msg, Line,
Column and a Kind string). -/
inductive ErrKind where
  | typeError | divideByZeroError | referenceError | unknownIdentifierError
  | unknownOperatorError | functionCallError | parameterError
  | lexicalError | syntaxError | semanticError | arrayOutOfBoundsError
  deriving DecidableEq, Repr

structure Err where
  kind : ErrKind
  msg : String
  line : Int
  column : Int
  deriving DecidableEq, Repr

def ErrKind.render : ErrKind → String
  | .typeError => "TypeError"
  | .divideByZeroError => "DivideByZeroError"
  | .referenceError => "ReferenceError"
  | .unknownIdentifierError => "UnknownIdentifierError"
  | .unknownOperatorError => "UnknownOperatorError"
  | .functionCallError => "FunctionCallError"
  | .parameterError => "ParameterError"
  | .lexicalError => "LexicalError"
  | .syntaxError => "SyntaxError"
  | .semanticError => "SemanticError"
  | .arrayOutOfBoundsError => "ArrayOutOfBoundsError"

/-- Error() rendering: "Kind: msg at line L, column C". -/
def Err.render (e : Err) : String :=
  e.kind.render ++ ": " ++ e.msg ++ " at line " ++ toString e.line ++ ", column " ++ toString e.column

def newLexicalError (msg : String) (line column : Int) : Err :=
  ⟨.lexicalError, msg, line, column⟩

def newSyntaxError (msg : String) (line column : Int) : Err :=
  ⟨.syntaxError, msg, line, column⟩

def newSemanticError (msg : String) (line column : Int) : Err :=
  ⟨.semanticError, msg, line, column⟩

/-- A Go `error` value as seen by the parser: either one of the positional
errors above, or a plain fmt.Errorf error (as produced by the bytecode
reader and by fuel exhaustion, which the Go code cannot exhibit). -/
inductive GoError where
  | positioned (e : Err)
  | plain (msg : String)
  deriving DecidableEq, Repr

/-! ## Runtime values (Go interface values, pkg/types)

Go represents runtime values as interface values holding nil, bool, int64,
float64, string, []interface, or map[string]interface.  Objects are modelled
as association lists with distinct keys; the list order of an object stands
for one iteration order of the underlying (unordered) Go map. -/

inductive Value where
  | vnull
  | vbool (b : Bool)
  | vint (n : Int)
  | vfloat (f : F64)
  | vstring (s : String)
  | varray (elems : List Value)
  | vobject (fields : List (String × Value))

/-- Association-list lookup, i.e. Go map indexing `m[key]`. -/
def assocFind (fields : List (String × Value)) (key : String) : Option Value :=
  match fields with
  | [] => none
  | (k, v) :: rest => if k = key then some v else assocFind rest key

/-- types.ToFloat: numeric value to float64. -/
def toFloatGo : Value → Option F64
  | .vint n => some (floatOfInt n)
  | .vfloat f => some f
  | _ => none

/-- types.ToInt: numeric value to int64 (floats truncate toward zero). -/
def toIntGo : Value → Option Int
  | .vint n => some n
  | .vfloat f => some (truncF f)
  | _ => none

/-- types.IsInt. -/
def isIntGo : Value → Bool
  | .vint _ => true
  | _ => false

/-- types.ConvertToStringMap (our Value only carries the map form). -/
def convertToStringMap : Value → Option (List (String × Value))
  | .vobject fields => some fields
  | _ => none

/-- types.ConvertToInterfaceSlice. -/
def convertToInterfaceSlice : Value → Option (List Value)
  | .varray elems => some elems
  | _ => none

/-! ## fmt.Sprintf("%v", value)

Used by the source as the fallback equality criterion and to stringify
non-string bracket keys.  Go prints nil as "<nil>", bools and integers in
the obvious way, arrays space-separated in brackets, and maps with sorted
keys.  Floats use Go's shortest-round-trip formatting, which no theorem in
this development evaluates; the rendering chosen here is deterministic and
marks the mantissa/exponent pair. -/

def insertSortedField (p : String × Value) : List (String × Value) → List (String × Value)
  | [] => [p]
  | q :: rest => if p.1 ≤ q.1 then p :: q :: rest else q :: insertSortedField p rest

def sortFields (l : List (String × Value)) : List (String × Value) :=
  l.foldr insertSortedField []

def goFormat : Nat → Value → String
  | _, .vnull => "<nil>"
  | _, .vbool b => if b then "true" else "false"
  | _, .vint n => toString n
  | _, .vstring s => s
  | _, .vfloat f => "float(" ++ toString f.m ++ "p" ++ toString f.e ++ ")"
  | 0, _ => ""
  | fuel + 1, .varray elems =>
      "[" ++ String.intercalate " " (elems.map (goFormat fuel)) ++ "]"
  | fuel + 1, .vobject fields =>
      "map[" ++ String.intercalate " "
        ((sortFields fields).map (fun kv => kv.1 ++ ":" ++ goFormat fuel kv.2)) ++ "]"

/-- Nesting depth bound for goFormat fuel. -/
def valueDepth : Nat → Value → Nat
  | 0, _ => 1
  | fuel + 1, .varray elems => 1 + (elems.map (valueDepth fuel)).foldr max 0
  | fuel + 1, .vobject fields => 1 + (fields.map (fun kv => valueDepth fuel kv.2)).foldr max 0
  | _, _ => 1

/-- Crude size bound used only to pick enough fuel. -/
def valueFuel (v : Value) : Nat := valueDepth 1000 v + 1

/-- types.Equals: numeric pairs compare with absolute tolerance 1e-9 on the
float64 projection (computed in float64 arithmetic as Go does); any other pair
compares by fmt.Sprintf("%v") string equality. -/
def equalsGo (left right : Value) : Bool :=
  match toFloatGo left, toFloatGo right with
  | some lf, some rf => ltF (absF (subF lf rf)) tolF
  | _, _ => goFormat (valueFuel left) left == goFormat (valueFuel right) right

/-- types.Compare: numeric-numeric and string-string ordered comparison;
anything else is a SemanticError. -/
def compareGo (left right : Value) (op : String) (line column : Int) : Except Err Bool :=
  match toFloatGo left, toFloatGo right with
  | some lf, some rf =>
      if op = "<" then .ok (ltF lf rf)
      else if op = ">" then .ok (ltF rf lf)
      else if op = "<=" then .ok (leF lf rf)
      else if op = ">=" then .ok (leF rf lf)
      else .error (newSemanticError ("'" ++ op ++ "' operator not allowed on given types") line column)
  | _, _ =>
      match left, right with
      | .vstring ls, .vstring rs =>
          if op = "<" then .ok (decide (ls < rs))
          else if op = ">" then .ok (decide (rs < ls))
          else if op = "<=" then .ok (decide (ls ≤ rs))
          else if op = ">=" then .ok (decide (rs ≤ ls))
          else .error (newSemanticError ("'" ++ op ++ "' operator not allowed on given types") line column)
      | _, _ =>
          .error (newSemanticError ("'" ++ op ++ "' operator not allowed on given types") line column)

/-! ## strconv-backed number literal parsing (types.ParseNumber) -/

def isDigitChar (c : Char) : Bool := '0' ≤ c ∧ c ≤ '9'

def digitsToNat (l : List Char) : Option Nat :=
  l.foldl (fun acc c =>
    match acc with
    | none => none
    | some n => if isDigitChar c then some (n * 10 + (c.toNat - 48)) else none)
    (some 0)

/-- strconv.ParseInt(lit, 10, 64): optional sign, decimal digits, int64 range
check; returns none on any error. -/
def parseIntGo (s : String) : Option Int :=
  let (sign, digits) :=
    match s.data with
    | '-' :: rest => (true, rest)
    | '+' :: rest => (false, rest)
    | l => (false, l)
  if digits = [] then none
  else
    match digitsToNat digits with
    | none => none
    | some n =>
        if sign then
          if n ≤ 9223372036854775808 then some (-(Int.ofNat n)) else none
        else
          if n ≤ 9223372036854775807 then some (Int.ofNat n) else none

/-- Correctly rounded binary64 value of the rational na / nb (nb ≠ 0). -/
def f64OfRat (na nb : Nat) : F64 :=
  if na = 0 ∨ nb = 0 then ⟨0, 0⟩
  else
    let (keep, eadj) := divMantissa na nb
    mkF64 (Int.ofNat keep) eadj

/-- strconv.ParseFloat for the decimal grammar the lexer produces
(digits, optional fraction, optional signed exponent): the correctly rounded
binary64 value of the decimal.  Returns none on a malformed literal.
(Values beyond the binary64 normal range do not appear in this development.) -/
def parseFloatGo (s : String) : Option F64 :=
  let (intDigits, rest1) := s.data.span isDigitChar
  let (fracDigits, rest2) :=
    match rest1 with
    | '.' :: r => r.span isDigitChar
    | _ => ([], rest1)
  let expPart : Option Int :=
    match rest2 with
    | [] => some 0
    | e :: r =>
        if e = 'e' ∨ e = 'E' then
          let (esign, edigits) :=
            match r with
            | '-' :: er => (true, er)
            | '+' :: er => (false, er)
            | er => (false, er)
          if edigits = [] ∨ ¬ (edigits.all isDigitChar) then none
          else match digitsToNat edigits with
            | none => none
            | some n => some (if esign then -(Int.ofNat n) else Int.ofNat n)
        else none
  if intDigits = [] ∧ fracDigits = [] then none
  else match expPart, digitsToNat (intDigits ++ fracDigits) with
    | none, _ => none
    | _, none => none
    | some ex, some mantissa =>
        let decExp : Int := ex - Int.ofNat fracDigits.length
        if decExp ≥ 0 then some (f64OfRat (mantissa * 10 ^ decExp.toNat) 1)
        else some (f64OfRat mantissa (10 ^ (-decExp).toNat))

/-- types.ParseNumber: a literal containing '.', 'e' or 'E' parses as float64
(0.0 on error), otherwise as int64 (0 on error). -/
def parseNumberGo (lit : String) : Value :=
  if lit.data.any (fun c => c = '.' ∨ c = 'e' ∨ c = 'E') then
    match parseFloatGo lit with
    | some f => .vfloat f
    | none => .vfloat ⟨0, 0⟩
  else
    match parseIntGo lit with
    | some i => .vint i
    | none => .vint 0

/-! ## UTF-8 byte/string conversions

The Go lexer walks the raw UTF-8 bytes of the source and the bytecode codec
stores literals as UTF-8 bytes; bytes are modelled as Nat values below 256. -/

/-- UTF-8 encoding of one scalar value. -/
def charUtf8 (c : Char) : List Nat :=
  let n := c.toNat
  if n < 128 then [n]
  else if n < 2048 then [192 + n / 64, 128 + n % 64]
  else if n < 65536 then [224 + n / 4096, 128 + (n / 64) % 64, 128 + n % 64]
  else [240 + n / 262144, 128 + (n / 4096) % 64, 128 + (n / 64) % 64, 128 + n % 64]

/-- UTF-8 bytes of a string ([]byte(s) in Go). -/
def stringBytes (s : String) : List Nat :=
  s.data.foldr (fun c acc => charUtf8 c ++ acc) []

/-- Decode UTF-8 bytes back to characters (string(bytes) in Go); malformed
sequences decode to U+FFFD.  All literals decoded in this development are
ASCII, where the function is exact byte-per-character decoding. -/
def utf8DecodeAux : Nat → List Nat → List Char
  | 0, _ => []
  | _, [] => []
  | fuel + 1, b :: rest =>
      if b < 128 then Char.ofNat b :: utf8DecodeAux fuel rest
      else if 192 ≤ b ∧ b < 224 then
        match rest with
        | b2 :: r2 => Char.ofNat ((b - 192) * 64 + b2 % 64) :: utf8DecodeAux fuel r2
        | [] => [Char.ofNat 65533]
      else if 224 ≤ b ∧ b < 240 then
        match rest with
        | b2 :: b3 :: r3 =>
            Char.ofNat ((b - 224) * 4096 + (b2 % 64) * 64 + b3 % 64) :: utf8DecodeAux fuel r3
        | _ => [Char.ofNat 65533]
      else if 240 ≤ b ∧ b < 248 then
        match rest with
        | b2 :: b3 :: b4 :: r4 =>
            Char.ofNat ((b - 240) * 262144 + (b2 % 64) * 4096 + (b3 % 64) * 64 + b4 % 64)
              :: utf8DecodeAux fuel r4
        | _ => [Char.ofNat 65533]
      else Char.ofNat 65533 :: utf8DecodeAux fuel rest

def utf8Decode (bytes : List Nat) : String :=
  String.mk (utf8DecodeAux (bytes.length + 1) bytes)

/-- Go string(b) for a single byte value b (conversion of an integer to a
string yields the UTF-8 of that code point). -/
def byteToString (b : Nat) : String := String.singleton (Char.ofNat b)

/-! ## Lexer (pkg/lexer)

State and scanning loop exactly as in the Go source; the input is the UTF-8
byte sequence of the source string and `ch` is the current byte (0 at end). -/

/-- Byte value of an ASCII character, for readable byte comparisons. -/
def byteOf (c : Char) : Nat := c.toNat

/-- strings.ToUpper as used by the parser (the literals compared are ASCII;
Go uppercases ASCII letters exactly like this). -/
def charUpper (c : Char) : Char :=
  if 'a' ≤ c ∧ c ≤ 'z' then Char.ofNat (c.toNat - 32) else c

def toUpperGo (s : String) : String := String.mk (s.data.map charUpper)

/-- unicode.IsSpace on the code points that can occur here (strings.TrimSpace
trims these from both ends). -/
def isSpaceGo (c : Char) : Bool :=
  c = ' ' ∨ c = '\t' ∨ c = '\n' ∨ c = '\r' ∨ c.toNat = 11 ∨ c.toNat = 12 ∨
  c.toNat = 133 ∨ c.toNat = 160

/-- strings.TrimSpace. -/
def trimSpaceGo (s : String) : String :=
  String.mk (((s.data.dropWhile isSpaceGo).reverse.dropWhile isSpaceGo).reverse)

structure Lexer where
  input : List Nat
  position : Nat
  readPosition : Nat
  ch : Nat
  line : Int
  column : Int
  deriving DecidableEq, Repr

/-- input[i], with the Go sentinel 0 used past the end. -/
def byteAt (l : List Nat) (i : Nat) : Nat := l.getD i 0

/-- readChar: advance to the next byte, maintaining line/column. -/
def Lexer.readChar (l : Lexer) : Lexer :=
  let c := if l.readPosition ≥ l.input.length then 0 else byteAt l.input l.readPosition
  let l' : Lexer := { l with ch := c, position := l.readPosition, readPosition := l.readPosition + 1 }
  if c = byteOf '\n' then { l' with line := l'.line + 1, column := 0 }
  else { l' with column := l'.column + 1 }

def newLexer (source : String) : Lexer :=
  Lexer.readChar { input := stringBytes source, position := 0, readPosition := 0,
                   ch := 0, line := 1, column := 0 }

/-- peekChar. -/
def Lexer.peekChar (l : Lexer) : Nat :=
  if l.readPosition ≥ l.input.length then 0 else byteAt l.input l.readPosition

def isLetterByte (c : Nat) : Bool :=
  (byteOf 'a' ≤ c ∧ c ≤ byteOf 'z') ∨ (byteOf 'A' ≤ c ∧ c ≤ byteOf 'Z') ∨ c = byteOf '_'

def isDigitByte (c : Nat) : Bool := byteOf '0' ≤ c ∧ c ≤ byteOf '9'

def isHexDigitByte (c : Nat) : Bool :=
  (byteOf '0' ≤ c ∧ c ≤ byteOf '9') ∨ (byteOf 'a' ≤ c ∧ c ≤ byteOf 'f') ∨
  (byteOf 'A' ≤ c ∧ c ≤ byteOf 'F')

def isWSByte (c : Nat) : Bool :=
  c = byteOf ' ' ∨ c = byteOf '\t' ∨ c = byteOf '\n' ∨ c = byteOf '\r'

/-- Plain whitespace loop of skipWhitespace. -/
def wsLoop : Nat → Lexer → Lexer
  | 0, l => l
  | fuel + 1, l => if isWSByte l.ch then wsLoop fuel l.readChar else l

/-- Inner comment loop: consume until newline or end of input. -/
def commentLoop : Nat → Lexer → Lexer
  | 0, l => l
  | fuel + 1, l =>
      if l.ch ≠ byteOf '\n' ∧ l.ch ≠ 0 then commentLoop fuel l.readChar else l

/-- Outer comment loop: while the current byte starts a comment, consume the
comment, the newline, and following whitespace. -/
def hashLoop : Nat → Lexer → Lexer
  | 0, l => l
  | fuel + 1, l =>
      if l.ch = byteOf '#' then
        let l1 := commentLoop (l.input.length + 1) l
        let l2 := l1.readChar
        let l3 := wsLoop (l2.input.length + 1) l2
        hashLoop fuel l3
      else l

def Lexer.skipWhitespace (l : Lexer) : Lexer :=
  hashLoop (l.input.length + 1) (wsLoop (l.input.length + 1) l)

/-- Bytes input[s:e] (Go slice of the source). -/
def sliceBytes (l : List Nat) (s e : Nat) : List Nat := (l.drop s).take (e - s)

/-- Identifier scanning loop: letters, digits and '-'. -/
def identLoop : Nat → Lexer → Lexer
  | 0, l => l
  | fuel + 1, l =>
      if isLetterByte l.ch ∨ isDigitByte l.ch ∨ l.ch = byteOf '-' then identLoop fuel l.readChar
      else l

/-- readIdentifier: returns the scanned literal and the advanced lexer. -/
def Lexer.readIdentifier (l : Lexer) : String × Lexer :=
  let l' := identLoop (l.input.length + 1) l
  (utf8Decode (sliceBytes l.input l.position l'.position), l')

/-- lookupIdent: case-sensitive keyword table. -/
def lookupIdent (ident : String) : TokenType :=
  if ident = "true" then .bool
  else if ident = "false" then .bool
  else if ident = "null" then .null
  else if ident = "AND" then .and
  else if ident = "OR" then .or
  else if ident = "NOT" then .not
  else .ident

/-- Digit scanning loop shared by the number phases. -/
def digitLoop : Nat → Lexer → Lexer
  | 0, l => l
  | fuel + 1, l => if isDigitByte l.ch then digitLoop fuel l.readChar else l

/-- Fraction phase of readNumber: an optional '.' must be followed by a
digit. -/
def readNumFrac (start : Nat) (startLine startColumn : Int) (l2 : Lexer) :
    Except (Token × Option Err × Lexer) Lexer :=
  if l2.ch = byteOf '.' then
    let l3 := l2.readChar
    if ¬ isDigitByte l3.ch then
      .error (⟨.illegal, utf8Decode (sliceBytes l3.input start l3.position),
               startLine, startColumn⟩,
              some (newLexicalError
                "Invalid number literal: missing digits after decimal point"
                startLine (Int.ofNat l3.position)), l3)
    else .ok (digitLoop (l3.input.length + 1) l3)
  else .ok l2

/-- Exponent phase of readNumber: an optional e/E with optional sign must be
followed by a digit. -/
def readNumExp (start : Nat) (startLine startColumn : Int) (l4 : Lexer) :
    Except (Token × Option Err × Lexer) Lexer :=
  if l4.ch = byteOf 'e' ∨ l4.ch = byteOf 'E' then
    let l5 := l4.readChar
    let l6 := if l5.ch = byteOf '-' ∨ l5.ch = byteOf '+' then l5.readChar else l5
    if ¬ isDigitByte l6.ch then
      .error (⟨.illegal, utf8Decode (sliceBytes l6.input start l6.position),
               startLine, startColumn⟩,
              some (newLexicalError "Invalid number literal: missing digits in exponent"
                startLine startColumn), l6)
    else .ok (digitLoop (l6.input.length + 1) l6)
  else .ok l4

/-- readNumber: integer part, optional fraction, optional exponent, producing
a NUMBER token or an ILLEGAL token together with a LexicalError. -/
def Lexer.readNumber (l : Lexer) : Token × Option Err × Lexer :=
  let start := l.position
  let startLine := l.line
  let startColumn := l.column
  let signCheck : Option (Nat × Lexer) :=
    if l.ch = byteOf '-' ∨ l.ch = byteOf '+' then
      let sign := l.ch
      let l1 := l.readChar
      if ¬ isDigitByte l1.ch then some (sign, l1) else none
    else none
  match signCheck with
  | some (sign, l1) =>
      (⟨.illegal, utf8Decode (sliceBytes l1.input start l1.position), startLine, startColumn⟩,
       some (newLexicalError
         ("Invalid number literal: '" ++ byteToString sign ++ "' not followed by a digit")
         startLine startColumn), l1)
  | none =>
      let l1 := if l.ch = byteOf '-' ∨ l.ch = byteOf '+' then l.readChar else l
      let l2 := digitLoop (l1.input.length + 1) l1
      match readNumFrac start startLine startColumn l2 with
      | .error r => r
      | .ok l4 =>
          match readNumExp start startLine startColumn l4 with
          | .error r => r
          | .ok l7 =>
              (⟨.number, utf8Decode (sliceBytes l7.input start l7.position),
                startLine, startColumn⟩, none, l7)

/-- WriteRune: a surrogate code point is not a valid rune and is written as
U+FFFD. -/
def charOfCode (n : Nat) : Char :=
  if 55296 ≤ n ∧ n ≤ 57343 then Char.ofNat 65533 else Char.ofNat n

/-- Read the four hex digits of a \u escape (each step advances first, as the
Go loop does).  Returns the code and the lexer at the final hex digit, or the
position of the failing byte. -/
def hexQuad (l : Lexer) : Except (Int × Int) (Nat × Lexer) :=
  let step (acc : Nat) (lx : Lexer) : Except (Int × Int) (Nat × Lexer) :=
    let lx' := lx.readChar
    if isHexDigitByte lx'.ch then
      let d := if lx'.ch ≥ byteOf 'a' then lx'.ch - 87
               else if lx'.ch ≥ byteOf 'A' then lx'.ch - 55
               else lx'.ch - 48
      .ok (acc * 16 + d, lx')
    else .error (lx'.line, lx'.column)
  match step 0 l with
  | .error p => .error p
  | .ok (a1, l1) =>
    match step a1 l1 with
    | .error p => .error p
    | .ok (a2, l2) =>
      match step a2 l2 with
      | .error p => .error p
      | .ok (a3, l3) => step a3 l3

/-- The scanning loop of readString: accumulates output bytes; `escaped`
mirrors the Go flag. -/
def readStringLoop :
    Nat → Bool → List Nat → Nat → Int → Int → Lexer → String × Option Err × Lexer
  | 0, _, _, _, _, _, l => ("", some (newLexicalError "lexer fuel exhausted" 0 0), l)
  | fuel + 1, escaped, acc, quote, sl, sc, l =>
      if l.ch = 0 then ("", some (newLexicalError "Unclosed string literal" sl sc), l)
      else if escaped then
        if l.ch = byteOf 'u' then
          match hexQuad l with
          | .error (el, ec) =>
              ("", some (newLexicalError "Invalid unicode escape sequence" el ec), l)
          | .ok (code, l4) =>
              readStringLoop fuel false (acc ++ charUtf8 (charOfCode code)) quote sl sc l4.readChar
        else
          let esc : Option Nat :=
            if l.ch = byteOf 'n' then some (byteOf '\n')
            else if l.ch = byteOf 'r' then some (byteOf '\r')
            else if l.ch = byteOf 't' then some (byteOf '\t')
            else if l.ch = byteOf '\\' then some (byteOf '\\')
            else if l.ch = byteOf '"' then some (byteOf '"')
            else if l.ch = byteOf '\'' then some (byteOf '\'')
            else none
          match esc with
          | some b => readStringLoop fuel false (acc ++ [b]) quote sl sc l.readChar
          | none =>
              ("", some (newLexicalError ("Invalid escape sequence: \\" ++ byteToString l.ch)
                l.line l.column), l)
      else
        if l.ch = byteOf '\\' then readStringLoop fuel true acc quote sl sc l.readChar
        else if l.ch = quote then (utf8Decode acc, none, l.readChar)
        else readStringLoop fuel false (acc ++ [l.ch]) quote sl sc l.readChar

/-- readString: record the opening position, skip the quote, scan. -/
def Lexer.readString (l : Lexer) (quote : Nat) : String × Option Err × Lexer :=
  readStringLoop (l.input.length + 2) false [] quote l.line l.column l.readChar

/-- The switch of NextToken, applied after skipWhitespace.  Single- and
double-byte operator branches mirror the Go switch arm for arm; branches that
fall through to the shared trailing readChar call do so here explicitly. -/
def Lexer.nextTokenCore (l : Lexer) : Token × Option Err × Lexer :=
  let startLine := l.line
  let startColumn := l.column
  let single (t : TokenType) : Token × Option Err × Lexer :=
    (⟨t, byteToString l.ch, startLine, startColumn⟩, none, l.readChar)
  let double (t : TokenType) (lit : String) : Token × Option Err × Lexer :=
    (⟨t, lit, startLine, startColumn⟩, none, l.readChar.readChar)
  if l.ch = byteOf '+' then single .plus
  else if l.ch = byteOf '-' then single .minus
  else if l.ch = byteOf '*' then single .multiply
  else if l.ch = byteOf '/' then single .divide
  else if l.ch = byteOf '<' then
    if l.peekChar = byteOf '=' then double .lte "<=" else single .lt
  else if l.ch = byteOf '>' then
    if l.peekChar = byteOf '=' then double .gte ">=" else single .gt
  else if l.ch = byteOf '=' then
    if l.peekChar = byteOf '=' then double .eq "=="
    else single .illegal
  else if l.ch = byteOf '!' then
    if l.peekChar = byteOf '=' then double .neq "!=" else single .not
  else if l.ch = byteOf '&' then
    if l.peekChar = byteOf '&' then
      (⟨.and, byteToString l.ch ++ byteToString l.readChar.ch, startLine, startColumn⟩,
       none, l.readChar.readChar)
    else
      (⟨.illegal, byteToString l.ch, startLine, startColumn⟩,
       some (newLexicalError "Unexpected character: &" startLine startColumn), l.readChar)
  else if l.ch = byteOf '|' then
    if l.peekChar = byteOf '|' then
      (⟨.or, byteToString l.ch ++ byteToString l.readChar.ch, startLine, startColumn⟩,
       none, l.readChar.readChar)
    else
      (⟨.illegal, byteToString l.ch, startLine, startColumn⟩,
       some (newLexicalError "Unexpected character: |" startLine startColumn), l.readChar)
  else if l.ch = byteOf '(' then single .lparen
  else if l.ch = byteOf ')' then single .rparen
  else if l.ch = byteOf '[' then single .leftBracket
  else if l.ch = byteOf ']' then single .rightBracket
  else if l.ch = byteOf '\x7b' then single .leftCurly
  else if l.ch = byteOf '\x7d' then single .rightCurly
  else if l.ch = byteOf ',' then single .comma
  else if l.ch = byteOf ':' then single .colon
  else if l.ch = byteOf '.' then single .dot
  else if l.ch = byteOf '?' then
    if l.peekChar = byteOf '.' then double .questionDot "?."
    else if l.peekChar = byteOf '[' then double .questionBracket "?["
    else single .question
  else if l.ch = byteOf '$' then single .dollar
  else if l.ch = byteOf '"' ∨ l.ch = byteOf '\'' then
    let (str, errOpt, l') := l.readString l.ch
    match errOpt with
    | some e =>
        (⟨.illegal, e.render, startLine, startColumn⟩, some e, l')
    | none => (⟨.string, str, startLine, startColumn⟩, none, l')
  else if l.ch = 0 then (⟨.eof, "", startLine, startColumn⟩, none, l.readChar)
  else if isLetterByte l.ch then
    let (lit, l') := l.readIdentifier
    (⟨lookupIdent lit, lit, startLine, startColumn⟩, none, l')
  else if isDigitByte l.ch then l.readNumber
  else
    (⟨.illegal, byteToString l.ch, startLine, startColumn⟩,
     some (newLexicalError ("Unexpected character: " ++ byteToString l.ch)
       startLine startColumn), l.readChar)

/-- NextToken: skip whitespace and comments, then scan one token. -/
def Lexer.nextToken (l : Lexer) : Token × Option Err × Lexer :=
  (l.skipWhitespace).nextTokenCore

/-- Run the lexer to completion: the stream of (token, error) pairs a parser
would pull, ending at the first EOF token or the first error. -/
def lexPairsAux : Nat → Lexer → List (Token × Option GoError)
  | 0, _ => []
  | fuel + 1, l =>
      let (tok, errOpt, l') := l.nextToken
      match errOpt with
      | some e => [(tok, some (.positioned e))]
      | none => if tok.type = .eof then [(tok, none)] else (tok, none) :: lexPairsAux fuel l'

def lexPairs (source : String) : List (Token × Option GoError) :=
  lexPairsAux ((stringBytes source).length + 2) (newLexer source)

/-- The iota index of a TokenType (the numeric value Go prints with %v). -/
def tokenTypeOrd : TokenType → Nat
  | .eof => 0 | .illegal => 1 | .ident => 2 | .number => 3 | .string => 4
  | .bool => 5 | .null => 6 | .plus => 7 | .minus => 8 | .multiply => 9
  | .divide => 10 | .lt => 11 | .gt => 12 | .lte => 13 | .gte => 14
  | .eq => 15 | .neq => 16 | .and => 17 | .or => 18 | .not => 19
  | .lparen => 20 | .rparen => 21 | .leftBracket => 22 | .rightBracket => 23
  | .leftCurly => 24 | .rightCurly => 25 | .comma => 26 | .colon => 27
  | .dot => 28 | .question => 29 | .questionDot => 30 | .questionBracket => 31
  | .dollar => 32

/-- ExportTokens: encode the token stream; a record is the type-code byte,
followed by a length-prefixed literal unless the type has a fixed literal AND
the token's literal equals it. -/
def exportTokensAux : Nat → Lexer → List Nat → Except GoError (List Nat)
  | 0, _, _ => .error (.plain "lexer fuel exhausted")
  | fuel + 1, l, acc =>
      let (tok, errOpt, l') := l.nextToken
      match errOpt with
      | some e => .error (.positioned e)
      | none =>
          match tokenTypeToByte tok.type with
          | none => .error (.plain ("unknown token type: " ++ toString (tokenTypeOrd tok.type)))
          | some code =>
              let bare : Bool :=
                match fixedTokenLiterals tok.type with
                | some fixed => tok.literal = fixed
                | none => false
              if bare then
                if tok.type = .eof then .ok (acc ++ [code])
                else exportTokensAux fuel l' (acc ++ [code])
              else
                let literalBytes := stringBytes tok.literal
                if literalBytes.length > 255 then .error (.plain "literal too long")
                else
                  let acc' := acc ++ code :: literalBytes.length :: literalBytes
                  if tok.type = .eof then .ok acc'
                  else exportTokensAux fuel l' acc'

def exportTokens (source : String) : Except GoError (List Nat) :=
  exportTokensAux ((stringBytes source).length + 2) (newLexer source) []

/-! ## ByteCodeReader (pkg/bytecode) -/

structure BCReader where
  data : List Nat
  pos : Nat
  deriving DecidableEq, Repr

/-- ByteCodeReader.NextToken: at end of data yields EOF; otherwise read the
type-code byte; a type with a fixed literal uses it and consumes no further
bytes; otherwise a length-prefixed literal is read.  Decoded tokens carry
position (-1, -1). -/
def BCReader.nextToken (b : BCReader) : Token × Option GoError × BCReader :=
  if b.pos ≥ b.data.length then (⟨.eof, "", 0, 0⟩, none, b)
  else
    let tokenTypeByte := byteAt b.data b.pos
    let b1 : BCReader := { b with pos := b.pos + 1 }
    match byteToTokenType tokenTypeByte with
    | none =>
        (⟨.illegal, "", 0, 0⟩,
         some (.plain ("unknown token type code: " ++ toString tokenTypeByte)), b1)
    | some tokenType =>
        match fixedTokenLiterals tokenType with
        | some fixed => (⟨tokenType, fixed, -1, -1⟩, none, b1)
        | none =>
            if b1.pos + 1 > b1.data.length then
              (⟨.illegal, "", 0, 0⟩,
               some (.plain "unexpected end of data reading literal length"), b1)
            else
              let len := byteAt b1.data b1.pos
              let b2 : BCReader := { b1 with pos := b1.pos + 1 }
              if b2.pos + len > b2.data.length then
                (⟨.illegal, "", 0, 0⟩,
                 some (.plain "unexpected end of data reading literal"), b2)
              else
                let literal := utf8Decode (sliceBytes b2.data b2.pos (b2.pos + len))
                (⟨tokenType, literal, -1, -1⟩, none, { b2 with pos := b2.pos + len })

/-- The (token, error) stream a parser pulls from a ByteCodeReader. -/
def bcPairsAux : Nat → BCReader → List (Token × Option GoError)
  | 0, _ => []
  | fuel + 1, b =>
      let (tok, errOpt, b') := b.nextToken
      match errOpt with
      | some e => [(tok, some e)]
      | none => if tok.type = .eof then [(tok, none)] else (tok, none) :: bcPairsAux fuel b'

def bcPairs (data : List Nat) : List (Token × Option GoError) :=
  bcPairsAux (data.length + 2) ⟨data, 0⟩

/-! ## AST (pkg/ast/expressions)

One constructor per Go expression struct.  ContextExpr's Ident pointer is an
optional (name, line, column) triple.  MemberPart's IsIndex flag picks which
of Key and Expr is meaningful, so it is modelled as a two-constructor sum.
ObjectLiteralExpr.Fields is a Go map; the field list below carries one
iteration order of that map. -/

mutual
inductive Expr where
  | lit (value : Value) (line column : Int)
  | identE (name : String) (line column : Int)
  | contextRef (identOpt : Option (String × Int × Int)) (subscript : Option Expr)
      (line column : Int)
  | unary (op : TokenType) (operand : Expr) (line column : Int)
  | binary (left : Expr) (op : TokenType) (right : Expr) (line column : Int)
  | memberAccess (target : Expr) (parts : List MemberPart)
  | funcCall (ns : List String) (args : List Expr) (line column parenLine parenColumn : Int)
  | arrayLit (elems : List Expr) (line column : Int)
  | objectLit (fields : List (String × Expr)) (line column : Int)

inductive MemberPart where
  | keyPart (optional : Bool) (key : String) (line column : Int)
  | idxPart (optional : Bool) (index : Expr) (line column : Int)
end

/-! ## Parser (pkg/parser)

Two-token lookahead over a stream of (token, error) pairs.  The recursive
knot (parenthesized and bracketed subexpressions) is tied by a single fueled
entry `parseExpression`; the productions take the recursive entry as the
function parameter `pe`.  Loop fuel is sized from the remaining stream, which
shrinks at every iteration, so it never runs out. -/

structure ParserState where
  rest : List (Token × Option GoError)
  curToken : Token
  peekToken : Token
  deriving Repr

/-- The zero Token value (Go's Token{}): TokenEof with empty literal. -/
def zeroToken : Token := ⟨.eof, "", 0, 0⟩

/-- Parser.nextToken: shift peek into cur and pull one pair from the stream;
a stream error propagates.  A stream list past its final EOF keeps yielding
EOF tokens, as both Go token streams do. -/
def nextTokenP (p : ParserState) : Except GoError ParserState :=
  match p.rest with
  | [] => .ok { rest := [], curToken := p.peekToken, peekToken := zeroToken }
  | (_, some e) :: _ => .error e
  | (t, none) :: r => .ok { rest := r, curToken := p.peekToken, peekToken := t }

/-- NewParser: two initial pulls. -/
def newParserState (stream : List (Token × Option GoError)) : Except GoError ParserState := do
  let p0 : ParserState := { rest := stream, curToken := zeroToken, peekToken := zeroToken }
  let p1 ← nextTokenP p0
  nextTokenP p1

/-- Type of the recursive entry point passed to every production. -/
abbrev PE := ParserState → Except GoError (Expr × ParserState)

def mkBinary (left : Expr) (operator : Token) (right : Expr) : Expr :=
  .binary left operator.type right operator.line operator.column

/-- parseContextExpression: after `$`, an IDENT, a bracketed subscript, or
nothing. -/
def parseContextExpression (pe : PE) (p : ParserState) : Except GoError (Expr × ParserState) := do
  let startToken := p.curToken
  let p1 ← nextTokenP p
  if p1.curToken.type = .ident then
    let identTriple := (p1.curToken.literal, p1.curToken.line, p1.curToken.column)
    let p2 ← nextTokenP p1
    pure (.contextRef (some identTriple) none startToken.line startToken.column, p2)
  else if p1.curToken.type = .leftBracket then do
    let p2 ← nextTokenP p1
    let (e, p3) ← pe p2
    if p3.curToken.type ≠ .rightBracket then
      throw (.positioned (newSyntaxError "Expected RBRACKET in context expression"
        p3.curToken.line p3.curToken.column))
    else do
      let p4 ← nextTokenP p3
      pure (.contextRef none (some e) startToken.line startToken.column, p4)
  else
    pure (.contextRef none none startToken.line startToken.column, p1)

/-- Dotted-identifier loop of parseFunctionCall. -/
def funcCallDots (pe : PE) :
    Nat → List String → ParserState → Except GoError (List String × ParserState)
  | 0, _, _ => throw (.plain "parser fuel exhausted")
  | fuel + 1, parts, p =>
      if p.curToken.type = .dot then do
        let p1 ← nextTokenP p
        if p1.curToken.type ≠ .ident then
          throw (.positioned (newSyntaxError "Expected identifier after dot in function call"
            p1.curToken.line p1.curToken.column))
        else do
          let p2 ← nextTokenP p1
          funcCallDots pe fuel (parts ++ [p1.curToken.literal]) p2
      else pure (parts, p)

/-- Comma-separated argument loop of parseFunctionCall. -/
def funcCallArgs (pe : PE) :
    Nat → List Expr → ParserState → Except GoError (List Expr × ParserState)
  | 0, _, _ => throw (.plain "parser fuel exhausted")
  | fuel + 1, args, p =>
      if p.curToken.type = .comma then do
        let p1 ← nextTokenP p
        let (arg, p2) ← pe p1
        funcCallArgs pe fuel (args ++ [arg]) p2
      else pure (args, p)

/-- parseFunctionCall: dotted namespace, parenthesized argument list. -/
def parseFunctionCall (pe : PE) (p : ParserState) : Except GoError (Expr × ParserState) := do
  let startToken := p.curToken
  let p1 ← nextTokenP p
  let (parts, p2) ← funcCallDots pe (p1.rest.length + 4) [startToken.literal] p1
  if p2.curToken.type ≠ .lparen then
    throw (.positioned (newSyntaxError "Expected '(' in function call"
      p2.curToken.line p2.curToken.column))
  else do
    let parenToken := p2.curToken
    let p3 ← nextTokenP p2
    let (args, p4) ←
      if p3.curToken.type ≠ .rparen then do
        let (arg, p3a) ← pe p3
        let (args, p3b) ← funcCallArgs pe (p3a.rest.length + 4) [arg] p3a
        if p3b.curToken.type ≠ .rparen then
          throw (.positioned (newSyntaxError "Expected ')' after arguments in function call"
            p3b.curToken.line p3b.curToken.column))
        else pure (args, p3b)
      else pure ([], p3)
    let p5 ← nextTokenP p4
    pure (.funcCall parts args startToken.line startToken.column
      parenToken.line parenToken.column, p5)

/-- Element loop of parseArrayLiteral. -/
def arrayElems (pe : PE) :
    Nat → List Expr → ParserState → Except GoError (List Expr × ParserState)
  | 0, _, _ => throw (.plain "parser fuel exhausted")
  | fuel + 1, elems, p =>
      if p.curToken.type = .comma then do
        let p1 ← nextTokenP p
        let (e, p2) ← pe p1
        arrayElems pe fuel (elems ++ [e]) p2
      else pure (elems, p)

/-- parseArrayLiteral. -/
def parseArrayLiteral (pe : PE) (p : ParserState) : Except GoError (Expr × ParserState) := do
  let startToken := p.curToken
  let p1 ← nextTokenP p
  if p1.curToken.type = .rightBracket then do
    let p2 ← nextTokenP p1
    pure (.arrayLit [] startToken.line startToken.column, p2)
  else do
    let (e, p2) ← pe p1
    let (elems, p3) ← arrayElems pe (p2.rest.length + 4) [e] p2
    if p3.curToken.type ≠ .rightBracket then
      throw (.positioned (newSyntaxError "Expected ']' at end of array literal"
        p3.curToken.line p3.curToken.column))
    else do
      let p4 ← nextTokenP p3
      pure (.arrayLit elems startToken.line startToken.column, p4)

/-- Field loop of parseObjectLiteral (duplicate keys detected against the
already-parsed fields, as the Go map insertion does). -/
def objectFields (pe : PE) :
    Nat → List (String × Expr) → ParserState →
      Except GoError (List (String × Expr) × ParserState)
  | 0, _, _ => throw (.plain "parser fuel exhausted")
  | fuel + 1, fields, p => do
      let key ←
        if p.curToken.type = .ident ∨ p.curToken.type = .string then
          pure (trimSpaceGo p.curToken.literal)
        else
          throw (.positioned (newSyntaxError "Expected identifier or string as object key"
            p.curToken.line p.curToken.column))
      if fields.any (fun kv => kv.1 = key) then
        throw (.positioned (newSemanticError ("Duplicate key '" ++ key ++ "' detected")
          p.curToken.line p.curToken.column))
      else if p.peekToken.type ≠ .colon then
        throw (.positioned (newSyntaxError "Expected ':' after object key"
          p.peekToken.line p.peekToken.column))
      else do
        let p1 ← nextTokenP p
        let p2 ← nextTokenP p1
        let (valueExpr, p3) ← pe p2
        let fields' := fields ++ [(key, valueExpr)]
        if p3.curToken.type = .comma then
          if p3.peekToken.type = .rightCurly then
            throw (.positioned (newSyntaxError "Trailing comma not allowed in object literal"
              p3.peekToken.line p3.peekToken.column))
          else do
            let p4 ← nextTokenP p3
            objectFields pe fuel fields' p4
        else if p3.curToken.type = .rightCurly then
          pure (fields', p3)
        else
          throw (.positioned (newSyntaxError
            "Expected ',' or '\x7d' after object field" p3.curToken.line p3.curToken.column))

/-- parseObjectLiteral. -/
def parseObjectLiteral (pe : PE) (p : ParserState) : Except GoError (Expr × ParserState) := do
  let startToken := p.curToken
  let p1 ← nextTokenP p
  if p1.curToken.type = .rightCurly then do
    let p2 ← nextTokenP p1
    pure (.objectLit [] startToken.line startToken.column, p2)
  else do
    let (fields, p2) ← objectFields pe (p1.rest.length + 4) [] p1
    if p2.curToken.type ≠ .rightCurly then
      throw (.positioned (newSyntaxError "Expected '\x7d' at end of object literal"
        p2.curToken.line p2.curToken.column))
    else do
      let p3 ← nextTokenP p2
      pure (.objectLit fields startToken.line startToken.column, p3)

/-- parsePrimaryExpressionInner: dispatch on the current token. -/
def parsePrimaryInner (pe : PE) (p : ParserState) : Except GoError (Expr × ParserState) := do
  match p.curToken.type with
  | .lparen => do
      let p1 ← nextTokenP p
      let (e, p2) ← pe p1
      if p2.curToken.type ≠ .rparen then
        throw (.positioned (newSyntaxError "Expected RPAREN" p2.curToken.line p2.curToken.column))
      else do
        let p3 ← nextTokenP p2
        pure (e, p3)
  | .number => do
      let litE := Expr.lit (parseNumberGo p.curToken.literal) p.curToken.line p.curToken.column
      let p1 ← nextTokenP p
      pure (litE, p1)
  | .string => do
      let litE := Expr.lit (.vstring p.curToken.literal) p.curToken.line p.curToken.column
      let p1 ← nextTokenP p
      pure (litE, p1)
  | .bool => do
      let val : Bool := p.curToken.literal = "true"
      let litE := Expr.lit (.vbool val) p.curToken.line p.curToken.column
      let p1 ← nextTokenP p
      pure (litE, p1)
  | .null => do
      let litE := Expr.lit .vnull p.curToken.line p.curToken.column
      let p1 ← nextTokenP p
      pure (litE, p1)
  | .dollar => parseContextExpression pe p
  | .leftCurly => parseObjectLiteral pe p
  | .leftBracket => parseArrayLiteral pe p
  | .ident =>
      if p.peekToken.type = .lparen ∨ p.peekToken.type = .dot then parseFunctionCall pe p
      else
        throw (.positioned (newSyntaxError
          ("Bare identifier '" ++ p.curToken.literal ++
           "' is not allowed outside of context references or object keys")
          p.curToken.line p.curToken.column))
  | _ =>
      throw (.positioned (newSyntaxError ("Unexpected token " ++ p.curToken.literal)
        p.curToken.line p.curToken.column))

/-- Append a member part the way the Go parser does: extend an existing
MemberAccessExpr, otherwise wrap the expression. -/
def attachPart (e : Expr) (part : MemberPart) : Expr :=
  match e with
  | .memberAccess t parts => .memberAccess t (parts ++ [part])
  | _ => .memberAccess e [part]

/-- Member-access chain loop. -/
def memberLoop (pe : PE) :
    Nat → Expr → ParserState → Except GoError (Expr × ParserState)
  | 0, _, _ => throw (.plain "parser fuel exhausted")
  | fuel + 1, e, p =>
      if p.curToken.type = .dot ∨ p.curToken.type = .leftBracket ∨
         p.curToken.type = .questionDot ∨ p.curToken.type = .questionBracket then
        if p.curToken.type = .dot ∨ p.curToken.type = .questionDot then do
          let optional := p.curToken.type = .questionDot
          let p1 ← nextTokenP p
          if p1.curToken.type ≠ .ident ∧ p1.curToken.type ≠ .string then
            throw (.positioned (newSyntaxError
              ("Expected identifier after dot at line " ++ toString p1.curToken.line ++
               ", column " ++ toString p1.curToken.column)
              p1.curToken.line p1.curToken.column))
          else do
            let part := MemberPart.keyPart optional (trimSpaceGo p1.curToken.literal)
              p1.curToken.line p1.curToken.column
            let p2 ← nextTokenP p1
            memberLoop pe fuel (attachPart e part) p2
        else do
          let optional := p.curToken.type = .questionBracket
          let p1 ← nextTokenP p
          let (indexExpr, p2) ← pe p1
          if p2.curToken.type ≠ .rightBracket then
            throw (.positioned (newSyntaxError
              ("Expected closing bracket at line " ++ toString p2.curToken.line ++
               ", column " ++ toString p2.curToken.column)
              p2.curToken.line p2.curToken.column))
          else do
            let p3 ← nextTokenP p2
            let part := MemberPart.idxPart optional indexExpr
              p3.curToken.line p3.curToken.column
            memberLoop pe fuel (attachPart e part) p3
      else pure (e, p)

/-- parseMemberAccessExpression. -/
def parseMemberAccess (pe : PE) (p : ParserState) : Except GoError (Expr × ParserState) := do
  let (e, p1) ← parsePrimaryInner pe p
  memberLoop pe (p1.rest.length + 4) e p1

/-- parseUnaryExpression (right-nested, hence its own fuel). -/
def parseUnaryAux (pe : PE) :
    Nat → ParserState → Except GoError (Expr × ParserState)
  | 0, _ => throw (.plain "parser fuel exhausted")
  | fuel + 1, p =>
      if p.curToken.type = .not ∨ p.curToken.type = .minus then do
        let operator := p.curToken
        let p1 ← nextTokenP p
        let (e, p2) ← parseUnaryAux pe fuel p1
        pure (.unary operator.type e operator.line operator.column, p2)
      else parseMemberAccess pe p

def parseUnary (pe : PE) (p : ParserState) : Except GoError (Expr × ParserState) :=
  parseUnaryAux pe (p.rest.length + 4) p

/-- Generic left-associative binary loop: while the current token satisfies
`isOp`, consume it and parse the next operand with `sub`. -/
def binaryLoop (isOp : Token → Bool)
    (sub : ParserState → Except GoError (Expr × ParserState)) :
    Nat → Expr → ParserState → Except GoError (Expr × ParserState)
  | 0, _, _ => throw (.plain "parser fuel exhausted")
  | fuel + 1, left, p =>
      if isOp p.curToken then do
        let operator := p.curToken
        let p1 ← nextTokenP p
        let (right, p2) ← sub p1
        binaryLoop isOp sub fuel (mkBinary left operator right) p2
      else pure (left, p)

def isMulOp (t : Token) : Bool := t.type = .multiply ∨ t.type = .divide

def isAddOp (t : Token) : Bool := t.type = .plus ∨ t.type = .minus

def isRelOp (t : Token) : Bool :=
  t.type = .lt ∨ t.type = .gt ∨ t.type = .lte ∨ t.type = .gte

def isEqOp (t : Token) : Bool := t.type = .eq ∨ t.type = .neq

/-- AND operator test: the AND token, or an IDENT whose uppercasing is "AND". -/
def isAndOp (t : Token) : Bool :=
  t.type = .and ∨ (t.type = .ident ∧ toUpperGo t.literal = "AND")

/-- OR operator test: the OR token, or an IDENT whose uppercasing is "OR". -/
def isOrOp (t : Token) : Bool :=
  t.type = .or ∨ (t.type = .ident ∧ toUpperGo t.literal = "OR")

def parseMultiplicative (pe : PE) (p : ParserState) : Except GoError (Expr × ParserState) := do
  let (left, p1) ← parseUnary pe p
  binaryLoop isMulOp (parseUnary pe) (p1.rest.length + 4) left p1

def parseAdditive (pe : PE) (p : ParserState) : Except GoError (Expr × ParserState) := do
  let (left, p1) ← parseMultiplicative pe p
  binaryLoop isAddOp (parseMultiplicative pe) (p1.rest.length + 4) left p1

def parseRelational (pe : PE) (p : ParserState) : Except GoError (Expr × ParserState) := do
  let (left, p1) ← parseAdditive pe p
  binaryLoop isRelOp (parseAdditive pe) (p1.rest.length + 4) left p1

def parseEquality (pe : PE) (p : ParserState) : Except GoError (Expr × ParserState) := do
  let (left, p1) ← parseRelational pe p
  binaryLoop isEqOp (parseRelational pe) (p1.rest.length + 4) left p1

def parseAndExpression (pe : PE) (p : ParserState) : Except GoError (Expr × ParserState) := do
  let (left, p1) ← parseEquality pe p
  binaryLoop isAndOp (parseEquality pe) (p1.rest.length + 4) left p1

def parseOrExpression (pe : PE) (p : ParserState) : Except GoError (Expr × ParserState) := do
  let (left, p1) ← parseAndExpression pe p
  binaryLoop isOrOp (parseAndExpression pe) (p1.rest.length + 4) left p1

/-- Parser.ParseExpression = parseOrExpression; the fuel bounds the nesting
depth of bracketed subexpressions, which consume at least one token each, so
any fuel above the stream length is enough. -/
def parseExpression : Nat → ParserState → Except GoError (Expr × ParserState)
  | 0, _ => throw (.plain "parser fuel exhausted")
  | fuel + 1, p => parseOrExpression (parseExpression fuel) p

/-- Parse one expression from a token stream (trailing tokens, if any, are
left unconsumed — exactly what Parser.ParseExpression does). -/
def parseStream (stream : List (Token × Option GoError)) : Except GoError Expr := do
  let p ← newParserState stream
  let (e, _) ← parseExpression (stream.length + 16) p
  pure e

/-- parse(source): lex then parse. -/
def parseString (source : String) : Except GoError Expr :=
  parseStream (lexPairs source)

/-- Parse from compiled bytecode: decode with ByteCodeReader.NextToken,
then parse. -/
def parseBytes (data : List Nat) : Except GoError Expr :=
  parseStream (bcPairs data)

/-! ## Environment (pkg/env) and evaluation (pkg/ast/expressions)

The environment maps a library namespace to a library; a library's single
method is call(name, args, line, column, parenLine, parenColumn).  No claim
below dispatches into a library, so the environment stays an abstract
parameter (the default environment registers the seven standard libraries). -/

structure Arg where
  value : Value
  line : Int
  column : Int

def Library := String → List Arg → Int → Int → Int → Int → Except Err Value

def Env := String → Option Library

/-- An environment with no libraries registered. -/
def emptyEnv : Env := fun _ => none

/-- Pos() of each AST node (MemberAccessExpr delegates to its target). -/
def exprPos : Expr → Int × Int
  | .lit _ l c => (l, c)
  | .identE _ l c => (l, c)
  | .contextRef _ _ l c => (l, c)
  | .unary _ _ l c => (l, c)
  | .binary _ _ _ l c => (l, c)
  | .memberAccess t _ => exprPos t
  | .funcCall _ _ l c _ _ => (l, c)
  | .arrayLit _ l c => (l, c)
  | .objectLit _ l c => (l, c)

/-- Go map insertion result[key] = val on an association list. -/
def mapInsert (fields : List (String × Value)) (k : String) (v : Value) :
    List (String × Value) :=
  match fields with
  | [] => [(k, v)]
  | (k', v') :: rest => if k' = k then (k, v) :: rest else (k', v') :: mapInsert rest k v

/-- MemberAccessExpr.Eval's loop over access parts, one iteration per part,
over the accumulator value.  `evalFn` is the evaluator for index
subexpressions. -/
def evalPartsLoop (evalFn : Expr → Except Err Value) :
    List MemberPart → Value → Except Err Value
  | [], val => .ok val
  | part :: rest, val =>
      let optional := match part with
        | .keyPart o _ _ _ => o
        | .idxPart o _ _ _ => o
      let valIsNull := match val with
        | .vnull => true
        | _ => false
      if valIsNull && optional then .ok .vnull
      else
        match part with
        | .keyPart opt key line col =>
            match convertToStringMap val with
            | none => .error ⟨.typeError, "dot access on non‑object", line, col⟩
            | some obj =>
                match assocFind obj key with
                | some v => evalPartsLoop evalFn rest v
                | none =>
                    if opt then .ok .vnull
                    else .error ⟨.referenceError, "field '" ++ key ++ "' not found", line, col⟩
        | .idxPart opt indexExpr line col => do
            let indexVal ← evalFn indexExpr
            match convertToStringMap val with
            | some obj =>
                let key := match indexVal with
                  | .vstring v => v
                  | v => goFormat (valueFuel v) v
                match assocFind obj key with
                | some v => evalPartsLoop evalFn rest v
                | none =>
                    if opt then .ok .vnull
                    else .error ⟨.referenceError, "field '" ++ key ++ "' not found", line, col⟩
            | none =>
                match convertToInterfaceSlice val with
                | some arr =>
                    match toIntGo indexVal with
                    | none => .error ⟨.typeError, "array index must be numeric", line, col⟩
                    | some idx =>
                        if idx < 0 ∨ idx ≥ Int.ofNat arr.length then
                          if opt then .ok .vnull
                          else .error ⟨.arrayOutOfBoundsError, "array index out of bounds",
                            line, col⟩
                        else evalPartsLoop evalFn rest (arr.getD idx.toNat .vnull)
                | none =>
                    .error ⟨.typeError, "target is not an object or array", line, col⟩

/-- FunctionCallExpr.Eval's argument loop: evaluate left to right, packaging
each value with the argument expression's position. -/
def evalArgsLoop (evalFn : Expr → Except Err Value) : List Expr → Except Err (List Arg)
  | [] => .ok []
  | a :: rest => do
      let v ← evalFn a
      let (l, c) := exprPos a
      let restArgs ← evalArgsLoop evalFn rest
      pure (⟨v, l, c⟩ :: restArgs)

/-- ArrayLiteralExpr.Eval's element loop. -/
def evalElemsLoop (evalFn : Expr → Except Err Value) : List Expr → Except Err (List Value)
  | [] => .ok []
  | a :: rest => do
      let v ← evalFn a
      let restVals ← evalElemsLoop evalFn rest
      pure (v :: restVals)

/-- ObjectLiteralExpr.Eval's field loop: the Go code ranges over the Fields
map (in whatever order the runtime yields) and inserts into the result map;
the input list order is that iteration order. -/
def evalFieldsLoop (evalFn : Expr → Except Err Value) :
    List (String × Expr) → List (String × Value) → Except Err (List (String × Value))
  | [], acc => .ok acc
  | (k, fe) :: rest, acc => do
      let v ← evalFn fe
      evalFieldsLoop evalFn rest (mapInsert acc k v)

/-- The float64 zero test rn == 0 of the division branch. -/
def isZeroF (f : F64) : Bool := f.m = 0

/-- Eval: the tree-walking interpreter, one case per Go Eval method.  The
fuel bounds the recursion depth (the Go walk recurses on subterms, so any
fuel at or above the tree depth yields the Go behaviour; the fuel-exhaustion
error is unreachable then). -/
def evalE : Nat → Expr → List (String × Value) → Env → Except Err Value
  | 0, _, _, _ => .error ⟨.typeError, "eval fuel exhausted", 0, 0⟩
  | fuel + 1, e, ctx, env =>
    match e with
    | .lit v _ _ => .ok v
    | .identE name line col =>
        .error ⟨.unknownIdentifierError, "Bare identifier '" ++ name ++ "' is not allowed",
          line, col⟩
    | .contextRef identOpt _subscript _ _ =>
        match identOpt with
        | some (name, iline, icol) =>
            match assocFind ctx name with
            | some v => .ok v
            | none => .error ⟨.referenceError, "field '" ++ name ++ "' not found", iline, icol⟩
        | none => .ok (.vobject ctx)
    | .unary op operand line col => do
        let val ← evalE fuel operand ctx env
        match op with
        | .minus =>
            match toFloatGo val with
            | none =>
                .error (newSemanticError "unary '-' operator requires a numeric operand" line col)
            | some num =>
                if isIntGo val then .ok (.vint (truncF (negF num)))
                else .ok (.vfloat (negF num))
        | .not =>
            match val with
            | .vbool b => .ok (.vbool (!b))
            | _ => .error (newSemanticError "NOT operator requires a boolean operand" line col)
        | _ => .error ⟨.unknownOperatorError, "unknown unary operator", line, col⟩
    | .binary left op right line col =>
        match op with
        | .and => do
            let leftVal ← evalE fuel left ctx env
            match leftVal with
            | .vbool lb =>
                if !lb then .ok (.vbool false)
                else do
                  let rightVal ← evalE fuel right ctx env
                  match rightVal with
                  | .vbool rb => .ok (.vbool rb)
                  | _ => .error (newSemanticError "AND operator requires boolean operand" line col)
            | _ => .error (newSemanticError "AND operator requires boolean operand" line col)
        | .or => do
            let leftVal ← evalE fuel left ctx env
            match leftVal with
            | .vbool lb =>
                if lb then .ok (.vbool true)
                else do
                  let rightVal ← evalE fuel right ctx env
                  match rightVal with
                  | .vbool rb => .ok (.vbool rb)
                  | _ => .error (newSemanticError "OR operator requires boolean operand" line col)
            | _ => .error (newSemanticError "OR operator requires boolean operand" line col)
        | _ => do
            let leftVal ← evalE fuel left ctx env
            let rightVal ← evalE fuel right ctx env
            match op with
            | .plus =>
                match toFloatGo leftVal, toFloatGo rightVal with
                | some ln, some rn =>
                    if isIntGo leftVal ≠ isIntGo rightVal then
                      .error (newSemanticError "Mixed numeric types require explicit conversion"
                        line col)
                    else if isIntGo leftVal then .ok (.vint (truncF (addF ln rn)))
                    else .ok (.vfloat (addF ln rn))
                | _, _ =>
                    .error (newSemanticError "'+' operator used on non‑numeric type" line col)
            | .minus =>
                match toFloatGo leftVal, toFloatGo rightVal with
                | some ln, some rn =>
                    if isIntGo leftVal ≠ isIntGo rightVal then
                      .error (newSemanticError "Mixed numeric types require explicit conversion"
                        line col)
                    else if isIntGo leftVal then .ok (.vint (truncF (subF ln rn)))
                    else .ok (.vfloat (subF ln rn))
                | _, _ =>
                    .error (newSemanticError "'-' operator used on non‑numeric type" line col)
            | .multiply =>
                match toFloatGo leftVal, toFloatGo rightVal with
                | some ln, some rn =>
                    if isIntGo leftVal ≠ isIntGo rightVal then
                      .error (newSemanticError "Mixed numeric types require explicit conversion"
                        line col)
                    else if isIntGo leftVal then .ok (.vint (truncF (mulF ln rn)))
                    else .ok (.vfloat (mulF ln rn))
                | _, _ =>
                    .error (newSemanticError "'*' operator used on non‑numeric type" line col)
            | .divide =>
                match toFloatGo leftVal, toFloatGo rightVal with
                | some ln, some rn =>
                    if isZeroF rn then
                      .error ⟨.divideByZeroError, "division by zero", line, col⟩
                    else if isIntGo leftVal ≠ isIntGo rightVal then
                      .error (newSemanticError "Mixed numeric types require explicit conversion"
                        line col)
                    else if isIntGo leftVal then .ok (.vint (truncF (divF ln rn)))
                    else .ok (.vfloat (divF ln rn))
                | _, _ =>
                    .error (newSemanticError "'/' operator used on non‑numeric type" line col)
            | .lt => (compareGo leftVal rightVal "<" line col).map Value.vbool
            | .gt => (compareGo leftVal rightVal ">" line col).map Value.vbool
            | .lte => (compareGo leftVal rightVal "<=" line col).map Value.vbool
            | .gte => (compareGo leftVal rightVal ">=" line col).map Value.vbool
            | .eq => .ok (.vbool (equalsGo leftVal rightVal))
            | .neq => .ok (.vbool (!equalsGo leftVal rightVal))
            | _ => .error ⟨.unknownOperatorError, "unknown binary operator", line, col⟩
    | .memberAccess target parts => do
        let v ← evalE fuel target ctx env
        evalPartsLoop (fun sub => evalE fuel sub ctx env) parts v
    | .funcCall ns args line col parenLine parenColumn =>
        if ns.length < 2 then
          .error ⟨.parameterError, "function call missing namespace", line, col⟩
        else
          let libName := ns.getD 0 ""
          let funcName := ns.getD 1 ""
          match env libName with
          | none => .error ⟨.referenceError, "library '" ++ libName ++ "' not found", line, col⟩
          | some lib => do
              let argVals ← evalArgsLoop (fun sub => evalE fuel sub ctx env) args
              lib funcName argVals line col parenLine parenColumn
    | .arrayLit elems _ _ => do
        let vals ← evalElemsLoop (fun sub => evalE fuel sub ctx env) elems
        .ok (.varray vals)
    | .objectLit fields _ _ => do
        let pairs ← evalFieldsLoop (fun sub => evalE fuel sub ctx env) fields []
        .ok (.vobject pairs)

/-! ## Theorems for the frozen claims -/

set_option maxRecDepth 1000000 in
/-- C1: the spec's round-trip property fails on the symbolic operator forms.
`true && false` parses and evaluates to false, and its exported token stream
encodes the `&&` AND-token with a length-prefixed literal (since "&&" differs
from the fixed literal "AND"); but ByteCodeReader.NextToken sees a
fixed-literal type and reads no literal bytes, so decoding desynchronizes and
fails — re-parsing the exported bytes errors instead of yielding an
evaluation-equivalent AST.  The same happens for `!` (and `||`). -/
theorem lql_c1_roundtrip_fails_on_symbolic_forms :
    parseString "true && false" =
      .ok (.binary (.lit (.vbool true) 1 1) .and (.lit (.vbool false) 1 9) 1 6)
    ∧ evalE 3 (.binary (.lit (.vbool true) 1 1) .and (.lit (.vbool false) 1 9) 1 6)
        [] emptyEnv = .ok (.vbool false)
    ∧ exportTokens "true && false" =
        .ok [5, 4, 116, 114, 117, 101, 17, 2, 38, 38, 5, 5, 102, 97, 108, 115, 101, 0, 0]
    ∧ parseBytes [5, 4, 116, 114, 117, 101, 17, 2, 38, 38, 5, 5, 102, 97, 108, 115, 101, 0, 0] =
        .error (.plain "unexpected end of data reading literal")
    ∧ exportTokens "!true" = .ok [19, 1, 33, 5, 4, 116, 114, 117, 101, 0, 0]
    ∧ parseBytes [19, 1, 33, 5, 4, 116, 114, 117, 101, 0, 0] =
        .error (.plain "unexpected end of data reading literal") :=
  ⟨rfl, rfl, rfl, rfl, rfl, rfl⟩

set_option maxRecDepth 1000000 in
/-- C2: evaluating a subscripted context reference `$[e]` ignores the
subscript entirely and returns the whole context object: ContextExpr.Eval
only handles the Ident head and otherwise returns ctx.  With context
mapping "a" to 1, `$["a"]` yields the whole object, not 1; and with an empty
context it still returns the (empty) context instead of a ReferenceError. -/
theorem lql_c2_subscript_eval_returns_whole_context :
    parseString "$[\"a\"]" = .ok (.contextRef none (some (.lit (.vstring "a") 1 3)) 1 1)
    ∧ evalE 5 (.contextRef none (some (.lit (.vstring "a") 1 3)) 1 1)
        [("a", .vint 1)] emptyEnv = .ok (.vobject [("a", .vint 1)])
    ∧ (Except.ok (Value.vobject [("a", .vint 1)]) : Except Err Value) ≠ .ok (.vint 1)
    ∧ evalE 5 (.contextRef none (some (.lit (.vstring "a") 1 3)) 1 1) [] emptyEnv =
        .ok (.vobject []) :=
  ⟨rfl, rfl, fun h => by injection h with h'; exact Value.noConfusion h', rfl⟩

/-- C3: AND and OR short-circuit.  For every pair of expressions and every
context and environment, if the left operand evaluates to false then the
conjunction evaluates to false without evaluating the right operand (so an
error the right operand alone would raise is not raised); symmetrically a
true left operand makes the disjunction true.  The fuel of the compound node
is one step above the fuel that evaluates the left operand, exactly as the
recursive walk descends. -/
theorem lql_c3_and_or_short_circuit
    (fuel : Nat) (l r : Expr) (ctx : List (String × Value)) (env : Env) (line col : Int) :
    (evalE fuel l ctx env = .ok (.vbool false) →
      evalE (fuel + 1) (.binary l .and r line col) ctx env = .ok (.vbool false))
    ∧ (evalE fuel l ctx env = .ok (.vbool true) →
      evalE (fuel + 1) (.binary l .or r line col) ctx env = .ok (.vbool true)) := by
  constructor
  · intro h
    simp only [evalE]
    rw [h]
    rfl
  · intro h
    simp only [evalE]
    rw [h]
    rfl

set_option maxRecDepth 1000000 in
/-- C3 witness: with left operand `false` and right operand `1/0` (which by
itself raises DivideByZeroError), `false AND (1/0)` evaluates to false, and
`true OR (1/0)` to true. -/
theorem lql_c3_and_or_short_circuit_witness :
    evalE 1 (.lit (.vbool false) 1 1) [] emptyEnv = .ok (.vbool false)
    ∧ evalE 2 (.binary (.lit (.vint 1) 1 10) .divide (.lit (.vint 0) 1 12) 1 11) [] emptyEnv =
        .error ⟨.divideByZeroError, "division by zero", 1, 11⟩
    ∧ evalE 2 (.binary (.lit (.vbool false) 1 1) .and
        (.binary (.lit (.vint 1) 1 10) .divide (.lit (.vint 0) 1 12) 1 11) 1 7) [] emptyEnv =
        .ok (.vbool false)
    ∧ evalE 2 (.binary (.lit (.vbool true) 1 1) .or
        (.binary (.lit (.vint 1) 1 10) .divide (.lit (.vint 0) 1 12) 1 11) 1 6) [] emptyEnv =
        .ok (.vbool true) :=
  ⟨rfl, rfl,
    (lql_c3_and_or_short_circuit 1 (.lit (.vbool false) 1 1)
      (.binary (.lit (.vint 1) 1 10) .divide (.lit (.vint 0) 1 12) 1 11) [] emptyEnv 1 7).1 rfl,
    (lql_c3_and_or_short_circuit 1 (.lit (.vbool true) 1 1)
      (.binary (.lit (.vint 1) 1 10) .divide (.lit (.vint 0) 1 12) 1 11) [] emptyEnv 1 6).2 rfl⟩

set_option maxRecDepth 1000000 in
/-- C4: integer division is computed as int64(float64(x) / float64(y)), so it
does not equal the truncated real quotient over the full int64 range: for
x = 2^53 + 1 = 9007199254740993 and y = 1 the conversion of x to float64
already rounds to 2^53 (ties to even), and the expression `x / 1` evaluates
to 9007199254740992 instead of x.  The claim's truncated quotient is x
itself (x / 1 = x truncates to x). -/
theorem lql_c4_division_wrong_at_large_magnitude :
    parseString "9007199254740993 / 1" =
      .ok (.binary (.lit (.vint 9007199254740993) 1 1) .divide (.lit (.vint 1) 1 20) 1 18)
    ∧ evalE 2 (.binary (.lit (.vint 9007199254740993) 1 1) .divide (.lit (.vint 1) 1 20) 1 18)
        [] emptyEnv = .ok (.vint 9007199254740992)
    ∧ (9007199254740993 : Int).tdiv 1 = 9007199254740993
    ∧ (Except.ok (Value.vint 9007199254740992) : Except Err Value) ≠ .ok (.vint 9007199254740993) := by
  refine ⟨rfl, rfl, rfl, fun h => ?_⟩
  injection h with h'
  injection h' with h''
  exact absurd h'' (by decide)

set_option maxRecDepth 1000000 in
/-- C5 counterexample: `true and false` (lowercase `and`) parses successfully
— the parser's AND test uppercases IDENT literals — so it is not a
bare-identifier parse error as the claim states. -/
theorem lql_c5_lowercase_and_parses :
    parseString "true and false" =
      .ok (.binary (.lit (.vbool true) 1 1) .ident (.lit (.vbool false) 1 10) 1 6) :=
  rfl

set_option maxRecDepth 1000000 in
/-- C5 amended: the lexer keyword table is case-sensitive (`and`, `And`
remain IDENT; only `AND` becomes the AND token), but the parser recognizes an
IDENT token as the AND/OR operator case-insensitively via uppercasing; hence
`true and false` (any casing) parses as a conjunction node whose operator
token type is IDENT — which the evaluator then rejects with
UnknownOperatorError, not a parse error. -/
theorem lql_c5_parser_keyword_recognition :
    lookupIdent "AND" = .and ∧ lookupIdent "OR" = .or
    ∧ lookupIdent "and" = .ident ∧ lookupIdent "And" = .ident ∧ lookupIdent "TRUE" = .ident
    ∧ isAndOp ⟨.ident, "and", 1, 6⟩ = true ∧ isAndOp ⟨.ident, "aNd", 1, 6⟩ = true
    ∧ isOrOp ⟨.ident, "or", 1, 6⟩ = true ∧ isAndOp ⟨.ident, "andx", 1, 6⟩ = false
    ∧ parseString "true aNd false" =
        .ok (.binary (.lit (.vbool true) 1 1) .ident (.lit (.vbool false) 1 10) 1 6)
    ∧ evalE 3 (.binary (.lit (.vbool true) 1 1) .ident (.lit (.vbool false) 1 10) 1 6)
        [] emptyEnv = .error ⟨.unknownOperatorError, "unknown binary operator", 1, 6⟩ :=
  ⟨rfl, rfl, rfl, rfl, rfl, rfl, rfl, rfl, rfl, rfl, rfl⟩

set_option maxRecDepth 1000000 in
/-- C6 counterexample: `1 2` — a complete expression followed by a trailing
token — parses successfully to the literal 1; ParseExpression does not reject
trailing input. -/
theorem lql_c6_trailing_tokens_accepted :
    parseString "1 2" = .ok (.lit (.vint 1) 1 1) :=
  rfl

set_option maxRecDepth 1000000 in
/-- C6 amended: ParseExpression parses a single leading expression and leaves
trailing tokens unconsumed without error: after the leading `1`, a trailing
number token and anything after it (here an arbitrary further token) are
ignored, and longer trailing junk behaves the same. -/
theorem lql_c6_trailing_tokens_ignored (t : Token) :
    parseStream [(⟨.number, "1", 1, 1⟩, none), (⟨.number, "2", 1, 3⟩, none), (t, none)] =
      .ok (.lit (.vint 1) 1 1)
    ∧ parseString "1 2 3" = .ok (.lit (.vint 1) 1 1) :=
  ⟨rfl, rfl⟩

set_option maxRecDepth 1000000 in
/-- C6 witness: the amended statement at the EOF token. -/
theorem lql_c6_trailing_tokens_ignored_witness :
    parseStream [(⟨.number, "1", 1, 1⟩, none), (⟨.number, "2", 1, 3⟩, none),
      (⟨.eof, "", 1, 5⟩, none)] = .ok (.lit (.vint 1) 1 1) :=
  (lql_c6_trailing_tokens_ignored ⟨.eof, "", 1, 5⟩).1

set_option maxRecDepth 1000000 in
/-- C7: the optional access operators do not produce Null on a non-null
non-object/non-array target: with context mapping "a" to the Int 5, `$a?.b`
raises TypeError "dot access on non‑object" and `$a?[0]` raises TypeError
"target is not an object or array" — the Optional flag only guards null
targets, missing keys and out-of-range indexes. -/
theorem lql_c7_optional_chaining_raises_on_primitive_target :
    parseString "$a?.b" =
      .ok (.memberAccess (.contextRef (some ("a", 1, 2)) none 1 1) [.keyPart true "b" 1 5])
    ∧ evalE 5 (.memberAccess (.contextRef (some ("a", 1, 2)) none 1 1) [.keyPart true "b" 1 5])
        [("a", .vint 5)] emptyEnv = .error ⟨.typeError, "dot access on non‑object", 1, 5⟩
    ∧ parseString "$a?[0]" =
      .ok (.memberAccess (.contextRef (some ("a", 1, 2)) none 1 1)
        [.idxPart true (.lit (.vint 0) 1 5) 1 7])
    ∧ evalE 5 (.memberAccess (.contextRef (some ("a", 1, 2)) none 1 1)
        [.idxPart true (.lit (.vint 0) 1 5) 1 7]) [("a", .vint 5)] emptyEnv =
        .error ⟨.typeError, "target is not an object or array", 1, 7⟩
    ∧ (Except.error ⟨.typeError, "dot access on non‑object", 1, 5⟩ : Except Err Value) ≠
        .ok .vnull :=
  ⟨rfl, rfl, rfl, rfl, fun h => Except.noConfusion h⟩

set_option maxRecDepth 1000000 in
/-- C8 counterexample: `true`, `false` and `null` tokens are NOT in
FixedTokenLiterals, so they are encoded with a length byte and literal bytes,
not as a single type-code byte: the stream for `null` is
[6, 4, 'n','u','l','l', 0, 0] (even the EOF record carries a length byte),
not the [6, 0] the claim predicts.  Symbolic `&&` (an AND-type token whose
literal differs from the fixed "AND") is also length-prefixed. -/
theorem lql_c8_fixed_literal_encoding_exceptions :
    exportTokens "null" = .ok [6, 4, 110, 117, 108, 108, 0, 0]
    ∧ [6, 4, 110, 117, 108, 108, 0, 0] ≠ [6, 0]
    ∧ exportTokens "true" = .ok [5, 4, 116, 114, 117, 101, 0, 0]
    ∧ exportTokens "&&" = .ok [17, 2, 38, 38, 0, 0] :=
  ⟨rfl, by decide, rfl, rfl⟩

set_option maxRecDepth 1000000 in
/-- C8 amended: a token is encoded as the bare type-code byte exactly when
its type is in FixedTokenLiterals AND its literal equals the fixed literal:
word-form operators, keywords and punctuation are bare; IDENT, NUMBER,
STRING, BOOL, NULL and EOF records, and symbolic-form `&&`/`||`/`!` tokens
(whose literals differ from the fixed "AND"/"OR"/"NOT"), carry a length byte
and literal bytes. -/
theorem lql_c8_record_layout :
    exportTokens "AND" = .ok [17, 0, 0]
    ∧ exportTokens "+" = .ok [7, 0, 0]
    ∧ exportTokens "?." = .ok [30, 0, 0]
    ∧ exportTokens "null" = .ok [6, 4, 110, 117, 108, 108, 0, 0]
    ∧ exportTokens "false" = .ok [5, 5, 102, 97, 108, 115, 101, 0, 0]
    ∧ exportTokens "&&" = .ok [17, 2, 38, 38, 0, 0]
    ∧ exportTokens "||" = .ok [18, 2, 124, 124, 0, 0]
    ∧ exportTokens "!" = .ok [19, 1, 33, 0, 0]
    ∧ exportTokens "x" = .ok [2, 1, 120, 0, 0]
    ∧ exportTokens "42" = .ok [3, 2, 52, 50, 0, 0]
    ∧ fixedTokenLiterals .bool = none ∧ fixedTokenLiterals .null = none
    ∧ fixedTokenLiterals .eof = none ∧ fixedTokenLiterals .and = some "AND" :=
  ⟨rfl, rfl, rfl, rfl, rfl, rfl, rfl, rfl, rfl, rfl, rfl, rfl, rfl, rfl⟩

set_option maxRecDepth 1000000 in
/-- C9: the error reported for an object literal with several failing fields
depends on the iteration order of the (unordered) Go Fields map: the field
list `{a: 1/0, b: $missing}` parses to a two-field map, and evaluating its
two possible iteration orders against the empty context yields different
errors (DivideByZeroError at the `/` of field a, versus ReferenceError at
the `$missing` of field b) — so evaluation is not deterministic across runs
as the claim states. -/
theorem lql_c9_object_literal_error_depends_on_iteration_order :
    parseString "\x7ba: 1/0, b: $missing\x7d" =
      .ok (.objectLit
        [("a", .binary (.lit (.vint 1) 1 5) .divide (.lit (.vint 0) 1 7) 1 6),
         ("b", .contextRef (some ("missing", 1, 14)) none 1 13)] 1 1)
    ∧ evalE 3 (.objectLit
        [("a", .binary (.lit (.vint 1) 1 5) .divide (.lit (.vint 0) 1 7) 1 6),
         ("b", .contextRef (some ("missing", 1, 14)) none 1 13)] 1 1) [] emptyEnv =
        .error ⟨.divideByZeroError, "division by zero", 1, 6⟩
    ∧ evalE 3 (.objectLit
        [("b", .contextRef (some ("missing", 1, 14)) none 1 13),
         ("a", .binary (.lit (.vint 1) 1 5) .divide (.lit (.vint 0) 1 7) 1 6)] 1 1) [] emptyEnv =
        .error ⟨.referenceError, "field 'missing' not found", 1, 14⟩
    ∧ List.Perm
        [("b", Expr.contextRef (some ("missing", 1, 14)) none 1 13),
         ("a", Expr.binary (.lit (.vint 1) 1 5) .divide (.lit (.vint 0) 1 7) 1 6)]
        [("a", Expr.binary (.lit (.vint 1) 1 5) .divide (.lit (.vint 0) 1 7) 1 6),
         ("b", Expr.contextRef (some ("missing", 1, 14)) none 1 13)]
    ∧ (Err.mk .divideByZeroError "division by zero" 1 6) ≠
        ⟨.referenceError, "field 'missing' not found", 1, 14⟩ :=
  ⟨rfl, rfl, rfl, List.Perm.swap _ _ _, by decide⟩


/-! ## Infrastructure for C10: the lexer never classifies a stray equals sign as a lexical error -/

/-- A code point other than 61 never converts to the character '='. -/
theorem charOfNat_ne_eq (c : Nat) (hc : c ≠ 61) : Char.ofNat c ≠ '=' := by
  intro he
  have ht := congrArg Char.toNat he
  by_cases h : c.isValidChar
  · rw [Char.ofNat, dif_pos h] at ht
    exact hc (by simpa using ht)
  · rw [Char.ofNat, dif_neg h] at ht
    simp at ht
    exact absurd ht (by decide)

/-- One-character strings are equal only when their characters are. -/
theorem singleton_inj {a b : Char} (h : String.singleton a = String.singleton b) : a = b := by
  have hd := congrArg String.data h
  simp only [String.singleton] at hd
  exact (List.cons.injEq a [] b []).mp hd |>.1

/-- The default-branch lexer message for a byte other than 61 is never the one for a stray equals sign. -/
theorem unexpected_msg_ne (c : Nat) (hc : c ≠ 61) :
    ("Unexpected character: " ++ byteToString c) ≠ "Unexpected character: =" := by
  intro he
  have hd := congrArg String.data he
  rw [String.data_append] at hd
  have htarget : ("Unexpected character: =").data = ("Unexpected character: ").data ++ ['='] := rfl
  rw [htarget] at hd
  have h2 := List.append_cancel_left hd
  simp only [byteToString, String.singleton] at h2
  exact charOfNat_ne_eq c hc ((List.cons.injEq _ [] _ []).mp h2).1

/-- Escape-sequence errors are never the stray-equals message (length differs). -/
theorem escape_msg_ne (c : Nat) :
    ("Invalid escape sequence: \\" ++ byteToString c) ≠ "Unexpected character: =" := by
  intro he
  have hl := congrArg String.length he
  rw [String.length_append] at hl
  have h1 : (byteToString c).length = 1 := rfl
  rw [h1] at hl
  exact absurd hl (by decide)

/-- The number-sign error is never the stray-equals message (length differs). -/
theorem number_msg_ne (c : Nat) :
    ("Invalid number literal: '" ++ byteToString c ++ "' not followed by a digit") ≠
      "Unexpected character: =" := by
  intro he
  have hl := congrArg String.length he
  rw [String.length_append, String.length_append] at hl
  have h1 : (byteToString c).length = 1 := rfl
  rw [h1] at hl
  exact absurd hl (by decide)

/-- Every error readString can return has a message other than "Unexpected character: =". -/
theorem readStringLoop_err :
    ∀ (fuel : Nat) (esc : Bool) (acc : List Nat) (quote : Nat) (sl sc : Int) (l : Lexer)
      (s : String) (er : Err) (l2 : Lexer),
      readStringLoop fuel esc acc quote sl sc l = (s, some er, l2) →
      er.msg ≠ "Unexpected character: =" := by
  intro fuel
  induction fuel with
  | zero =>
      intro esc acc quote sl sc l s er l2 h
      simp only [readStringLoop, Prod.mk.injEq] at h
      obtain ⟨-, h2, -⟩ := h
      injection h2 with h2
      rw [← h2]
      decide
  | succ n ih =>
      intro esc acc quote sl sc l s er l2 h
      simp only [readStringLoop] at h
      split at h
      · simp only [Prod.mk.injEq] at h
        obtain ⟨-, h2, -⟩ := h
        injection h2 with h2
        rw [← h2]
        exact (by decide : ("Unclosed string literal" : String) ≠ "Unexpected character: =")
      · split at h
        · split at h
          · split at h
            · simp only [Prod.mk.injEq] at h
              obtain ⟨-, h2, -⟩ := h
              injection h2 with h2
              rw [← h2]
              exact (by decide : ("Invalid unicode escape sequence" : String) ≠ "Unexpected character: =")
            · exact ih _ _ _ _ _ _ _ _ _ h
          · split at h
            · exact ih _ _ _ _ _ _ _ _ _ h
            · simp only [Prod.mk.injEq] at h
              obtain ⟨-, h2, -⟩ := h
              injection h2 with h2
              rw [← h2]
              exact escape_msg_ne l.ch
        · split at h
          · exact ih _ _ _ _ _ _ _ _ _ h
          · split at h
            · simp only [Prod.mk.injEq] at h
              obtain ⟨-, h2, -⟩ := h
              exact Option.noConfusion h2
            · exact ih _ _ _ _ _ _ _ _ _ h

/-- The fraction phase of readNumber never yields the stray-equals message. -/
theorem readNumFrac_err (start : Nat) (sl sc : Int) (l2 : Lexer) (tok : Token)
    (erOpt : Option Err) (lx : Lexer)
    (h : readNumFrac start sl sc l2 = .error (tok, erOpt, lx)) (er : Err)
    (he : erOpt = some er) : er.msg ≠ "Unexpected character: =" := by
  simp only [readNumFrac] at h
  split at h
  · split at h
    · injection h with h
      simp only [Prod.mk.injEq] at h
      obtain ⟨-, h2, -⟩ := h
      rw [← h2] at he
      injection he with he
      rw [← he]
      exact (by decide :
        ("Invalid number literal: missing digits after decimal point" : String) ≠
          "Unexpected character: =")
    · exact Except.noConfusion h
  · exact Except.noConfusion h

/-- The exponent phase of readNumber never yields the stray-equals message. -/
theorem readNumExp_err (start : Nat) (sl sc : Int) (l4 : Lexer) (tok : Token)
    (erOpt : Option Err) (lx : Lexer)
    (h : readNumExp start sl sc l4 = .error (tok, erOpt, lx)) (er : Err)
    (he : erOpt = some er) : er.msg ≠ "Unexpected character: =" := by
  have leaf : ∀ erOpt2 : Option Err,
      erOpt2 = some (newLexicalError "Invalid number literal: missing digits in exponent" sl sc) →
      erOpt = erOpt2 → er.msg ≠ "Unexpected character: =" := by
    intro erOpt2 hx hy
    rw [hy, hx] at he
    injection he with he
    rw [← he]
    exact (by decide :
      ("Invalid number literal: missing digits in exponent" : String) ≠
        "Unexpected character: =")
  simp only [readNumExp] at h
  split at h
  · split at h
    · split at h
      · injection h with h
        simp only [Prod.mk.injEq] at h
        exact leaf _ rfl h.2.1.symm
      · exact Except.noConfusion h
    · split at h
      · injection h with h
        simp only [Prod.mk.injEq] at h
        exact leaf _ rfl h.2.1.symm
      · exact Except.noConfusion h
  · exact Except.noConfusion h

/-- Every error readNumber can return has a message other than "Unexpected character: =". -/
theorem readNumber_err (l : Lexer) (tok : Token) (er : Err) (l2 : Lexer)
    (h : l.readNumber = (tok, some er, l2)) : er.msg ≠ "Unexpected character: =" := by
  simp only [Lexer.readNumber] at h
  split at h
  · rename_i sign l1 heq
    simp only [Prod.mk.injEq] at h
    obtain ⟨-, h2, -⟩ := h
    injection h2 with h2
    rw [← h2]
    exact number_msg_ne sign
  · split at h
    · rename_i r heq
      rw [h] at heq
      exact readNumFrac_err _ _ _ _ _ _ _ heq er rfl
    · split at h
      · rename_i r heq
        rw [h] at heq
        exact readNumExp_err _ _ _ _ _ _ _ heq er rfl
      · simp only [Prod.mk.injEq] at h
        obtain ⟨-, h2, -⟩ := h
        exact Option.noConfusion h2

/-- Projection helper: an Err built with some other message differs from the stray-equals message. -/
theorem err_msg_ne (k : ErrKind) (m : String) (a b : Int)
    (hm : m ≠ "Unexpected character: =") :
    (Err.mk k m a b).msg ≠ "Unexpected character: =" := hm

/-- Case analysis over the whole NextToken switch: no branch ever returns an error whose message is "Unexpected character: =". -/
theorem nextTokenCore_err (l : Lexer) (tok : Token) (er : Err) (lx : Lexer)
    (h : l.nextTokenCore = (tok, some er, lx)) : er.msg ≠ "Unexpected character: =" := by
  simp only [Lexer.nextTokenCore] at h
  by_cases hc0 : l.ch = byteOf '+'
  · rw [if_pos hc0] at h
    simp only [Prod.mk.injEq] at h
    exact Option.noConfusion h.2.1
  rw [if_neg hc0] at h
  by_cases hc1 : l.ch = byteOf '-'
  · rw [if_pos hc1] at h
    simp only [Prod.mk.injEq] at h
    exact Option.noConfusion h.2.1
  rw [if_neg hc1] at h
  by_cases hc2 : l.ch = byteOf '*'
  · rw [if_pos hc2] at h
    simp only [Prod.mk.injEq] at h
    exact Option.noConfusion h.2.1
  rw [if_neg hc2] at h
  by_cases hc3 : l.ch = byteOf '/'
  · rw [if_pos hc3] at h
    simp only [Prod.mk.injEq] at h
    exact Option.noConfusion h.2.1
  rw [if_neg hc3] at h
  by_cases hc4 : l.ch = byteOf '<'
  · rw [if_pos hc4] at h
    split at h
    · simp only [Prod.mk.injEq] at h
      exact Option.noConfusion h.2.1
    · simp only [Prod.mk.injEq] at h
      exact Option.noConfusion h.2.1
  rw [if_neg hc4] at h
  by_cases hc5 : l.ch = byteOf '>'
  · rw [if_pos hc5] at h
    split at h
    · simp only [Prod.mk.injEq] at h
      exact Option.noConfusion h.2.1
    · simp only [Prod.mk.injEq] at h
      exact Option.noConfusion h.2.1
  rw [if_neg hc5] at h
  by_cases hc6 : l.ch = byteOf '='
  · rw [if_pos hc6] at h
    split at h
    · simp only [Prod.mk.injEq] at h
      exact Option.noConfusion h.2.1
    · simp only [Prod.mk.injEq] at h
      exact Option.noConfusion h.2.1
  rw [if_neg hc6] at h
  by_cases hc7 : l.ch = byteOf '!'
  · rw [if_pos hc7] at h
    split at h
    · simp only [Prod.mk.injEq] at h
      exact Option.noConfusion h.2.1
    · simp only [Prod.mk.injEq] at h
      exact Option.noConfusion h.2.1
  rw [if_neg hc7] at h
  by_cases hc8 : l.ch = byteOf '&'
  · rw [if_pos hc8] at h
    split at h
    · simp only [Prod.mk.injEq] at h
      exact Option.noConfusion h.2.1
    · simp only [Prod.mk.injEq] at h
      obtain ⟨-, h2, -⟩ := h
      injection h2 with h2
      rw [← h2]
      exact err_msg_ne _ _ _ _ (by decide)
  rw [if_neg hc8] at h
  by_cases hc9 : l.ch = byteOf '|'
  · rw [if_pos hc9] at h
    split at h
    · simp only [Prod.mk.injEq] at h
      exact Option.noConfusion h.2.1
    · simp only [Prod.mk.injEq] at h
      obtain ⟨-, h2, -⟩ := h
      injection h2 with h2
      rw [← h2]
      exact err_msg_ne _ _ _ _ (by decide)
  rw [if_neg hc9] at h
  by_cases hc10 : l.ch = byteOf '('
  · rw [if_pos hc10] at h
    simp only [Prod.mk.injEq] at h
    exact Option.noConfusion h.2.1
  rw [if_neg hc10] at h
  by_cases hc11 : l.ch = byteOf ')'
  · rw [if_pos hc11] at h
    simp only [Prod.mk.injEq] at h
    exact Option.noConfusion h.2.1
  rw [if_neg hc11] at h
  by_cases hc12 : l.ch = byteOf '['
  · rw [if_pos hc12] at h
    simp only [Prod.mk.injEq] at h
    exact Option.noConfusion h.2.1
  rw [if_neg hc12] at h
  by_cases hc13 : l.ch = byteOf ']'
  · rw [if_pos hc13] at h
    simp only [Prod.mk.injEq] at h
    exact Option.noConfusion h.2.1
  rw [if_neg hc13] at h
  by_cases hc14 : l.ch = byteOf '\x7b'
  · rw [if_pos hc14] at h
    simp only [Prod.mk.injEq] at h
    exact Option.noConfusion h.2.1
  rw [if_neg hc14] at h
  by_cases hc15 : l.ch = byteOf '\x7d'
  · rw [if_pos hc15] at h
    simp only [Prod.mk.injEq] at h
    exact Option.noConfusion h.2.1
  rw [if_neg hc15] at h
  by_cases hc16 : l.ch = byteOf ','
  · rw [if_pos hc16] at h
    simp only [Prod.mk.injEq] at h
    exact Option.noConfusion h.2.1
  rw [if_neg hc16] at h
  by_cases hc17 : l.ch = byteOf ':'
  · rw [if_pos hc17] at h
    simp only [Prod.mk.injEq] at h
    exact Option.noConfusion h.2.1
  rw [if_neg hc17] at h
  by_cases hc18 : l.ch = byteOf '.'
  · rw [if_pos hc18] at h
    simp only [Prod.mk.injEq] at h
    exact Option.noConfusion h.2.1
  rw [if_neg hc18] at h
  by_cases hc19 : l.ch = byteOf '?'
  · rw [if_pos hc19] at h
    split at h
    · simp only [Prod.mk.injEq] at h
      exact Option.noConfusion h.2.1
    · split at h
      · simp only [Prod.mk.injEq] at h
        exact Option.noConfusion h.2.1
      · simp only [Prod.mk.injEq] at h
        exact Option.noConfusion h.2.1
  rw [if_neg hc19] at h
  by_cases hc20 : l.ch = byteOf '$'
  · rw [if_pos hc20] at h
    simp only [Prod.mk.injEq] at h
    exact Option.noConfusion h.2.1
  rw [if_neg hc20] at h
  by_cases hc21 : l.ch = byteOf '"' ∨ l.ch = byteOf '\''
  · rw [if_pos hc21] at h
    rcases hsv : l.readString l.ch with ⟨str, errOpt, l3⟩
    rw [hsv] at h
    cases errOpt with
    | none =>
        simp only [Prod.mk.injEq] at h
        exact Option.noConfusion h.2.1
    | some e =>
        simp only [Prod.mk.injEq] at h
        obtain ⟨-, h2, -⟩ := h
        injection h2 with h2
        rw [← h2]
        simp only [Lexer.readString] at hsv
        exact readStringLoop_err _ _ _ _ _ _ _ _ _ _ hsv
  rw [if_neg hc21] at h
  by_cases hc22 : l.ch = 0
  · rw [if_pos hc22] at h
    simp only [Prod.mk.injEq] at h
    exact Option.noConfusion h.2.1
  rw [if_neg hc22] at h
  by_cases hc23 : isLetterByte l.ch = true
  · rw [if_pos hc23] at h
    rcases hiv : l.readIdentifier with ⟨lit, l3⟩
    rw [hiv] at h
    simp only [Prod.mk.injEq] at h
    exact Option.noConfusion h.2.1
  rw [if_neg hc23] at h
  by_cases hc24 : isDigitByte l.ch = true
  · rw [if_pos hc24] at h
    exact readNumber_err _ _ _ _ h
  rw [if_neg hc24] at h
  simp only [Prod.mk.injEq] at h
  obtain ⟨-, h2, -⟩ := h
  injection h2 with h2
  rw [← h2]
  exact err_msg_ne _ _ _ _ (unexpected_msg_ne _ hc6)

/-- skipWhitespace leaves the lexer unchanged when the current byte is neither whitespace nor a comment start. -/
theorem skipWS_id (l : Lexer) (h1 : isWSByte l.ch = false) (h2 : l.ch ≠ byteOf '#') :
    l.skipWhitespace = l := by
  have hw : wsLoop (l.input.length + 1) l = l := by
    simp only [wsLoop, h1]
    simp
  simp only [Lexer.skipWhitespace, hw]
  simp only [hashLoop]
  simp [h2]

/-- NextToken on a lone '=' (peek not '=') returns an ILLEGAL token with a nil error. -/
theorem nextToken_eq_lone (l : Lexer) (h : l.ch = byteOf '=')
    (hp : l.peekChar ≠ byteOf '=') :
    l.nextToken = (⟨.illegal, "=", l.line, l.column⟩, none, l.readChar) := by
  have hid : l.skipWhitespace = l := skipWS_id l (by rw [h]; decide) (by rw [h]; decide)
  show (l.skipWhitespace).nextTokenCore = _
  rw [hid]
  simp only [Lexer.nextTokenCore, h, hp]
  repeat rw [if_neg (by decide)]
  rfl

/-- NextToken on a lone '&' returns ILLEGAL together with a LexicalError. -/
theorem nextToken_amp_lone (l : Lexer) (h : l.ch = byteOf '&')
    (hp : l.peekChar ≠ byteOf '&') :
    l.nextToken = (⟨.illegal, "&", l.line, l.column⟩,
      some (newLexicalError "Unexpected character: &" l.line l.column), l.readChar) := by
  have hid : l.skipWhitespace = l := skipWS_id l (by rw [h]; decide) (by rw [h]; decide)
  show (l.skipWhitespace).nextTokenCore = _
  rw [hid]
  simp only [Lexer.nextTokenCore, h, hp]
  repeat rw [if_neg (by decide)]
  rfl

/-- NextToken on a lone '|' returns ILLEGAL together with a LexicalError. -/
theorem nextToken_pipe_lone (l : Lexer) (h : l.ch = byteOf '|')
    (hp : l.peekChar ≠ byteOf '|') :
    l.nextToken = (⟨.illegal, "|", l.line, l.column⟩,
      some (newLexicalError "Unexpected character: |" l.line l.column), l.readChar) := by
  have hid : l.skipWhitespace = l := skipWS_id l (by rw [h]; decide) (by rw [h]; decide)
  show (l.skipWhitespace).nextTokenCore = _
  rw [hid]
  simp only [Lexer.nextTokenCore, h, hp]
  repeat rw [if_neg (by decide)]
  rfl

set_option maxRecDepth 1000000 in
/-- C10: a lone `=` is not a lexical error: NextToken returns an ILLEGAL
token carrying "=" with a nil error, unlike a lone `&` or `|`, which return a
LexicalError; no error the lexer ever returns carries the message
"Unexpected character: ="; and an input whose parse reaches the stray `=` in
operand position fails at parse time with SyntaxError "Unexpected token =". -/
theorem lql_c10_lone_equals_classification :
    (∀ l : Lexer, l.ch = byteOf '=' → l.peekChar ≠ byteOf '=' →
      l.nextToken = (⟨.illegal, "=", l.line, l.column⟩, none, l.readChar))
    ∧ (∀ l : Lexer, l.ch = byteOf '&' → l.peekChar ≠ byteOf '&' →
      l.nextToken = (⟨.illegal, "&", l.line, l.column⟩,
        some (newLexicalError "Unexpected character: &" l.line l.column), l.readChar))
    ∧ (∀ l : Lexer, l.ch = byteOf '|' → l.peekChar ≠ byteOf '|' →
      l.nextToken = (⟨.illegal, "|", l.line, l.column⟩,
        some (newLexicalError "Unexpected character: |" l.line l.column), l.readChar))
    ∧ (∀ (l : Lexer) (tok : Token) (er : Err) (l2 : Lexer),
      l.nextToken = (tok, some er, l2) → er.msg ≠ "Unexpected character: =")
    ∧ parseString "=" = .error (.positioned (newSyntaxError "Unexpected token =" 1 1)) :=
  ⟨nextToken_eq_lone, nextToken_amp_lone, nextToken_pipe_lone,
   fun l tok er l2 h => nextTokenCore_err l.skipWhitespace tok er l2 h, rfl⟩

set_option maxRecDepth 1000000 in
/-- C10 witness: the lone-character lemmas applied at concrete fresh lexers. -/
theorem lql_c10_lone_equals_classification_witness :
    (newLexer "=").ch = byteOf '=' ∧ (newLexer "=").peekChar ≠ byteOf '='
    ∧ (newLexer "=").nextToken =
        (⟨.illegal, "=", 1, 1⟩, none, (newLexer "=").readChar)
    ∧ (newLexer "&").nextToken =
        (⟨.illegal, "&", 1, 1⟩, some (newLexicalError "Unexpected character: &" 1 1),
         (newLexer "&").readChar)
    ∧ (newLexer "|").nextToken =
        (⟨.illegal, "|", 1, 1⟩, some (newLexicalError "Unexpected character: |" 1 1),
         (newLexer "|").readChar)
    ∧ (newLexicalError "Unexpected character: &" 1 1).msg ≠ "Unexpected character: =" :=
  ⟨rfl, by decide,
   lql_c10_lone_equals_classification.1 (newLexer "=") rfl (by decide),
   lql_c10_lone_equals_classification.2.1 (newLexer "&") rfl (by decide),
   lql_c10_lone_equals_classification.2.2.1 (newLexer "|") rfl (by decide),
   lql_c10_lone_equals_classification.2.2.2.1 (newLexer "&") _ _ _
     (lql_c10_lone_equals_classification.2.1 (newLexer "&") rfl (by decide))⟩


end LQL
